import Mathlib

set_option maxRecDepth 100000

/-!
Verification development for the facility/booking time-preference app
(`src/form.py` and `src/app.py`): the slot-axis generator (`time_slots`),
range validator (`validate_range`), color assigner (`name_to_color`),
grid builder and workbook assembler (`make_excel_by_date`), and the
submission handlers.

External-library semantics (pandas, hashlib, openpyxl) are modelled as
follows:
 * `pd.to_datetime` applied to a time-of-day string is modelled by
   `parseHM`, restricted to `H:MM` / `HH:MM` shaped inputs (everything
   else is "unparseable", i.e. the pandas call raises);
 * `.strftime("%H:%M")` is modelled by `fmtHM` (zero-padded, 24h clock);
 * `pd.date_range(base, end, freq)` with a positive frequency is modelled
   by `slotMinutes` (inclusive arithmetic sequence, empty when `end < base`);
 * `hashlib.md5` is implemented bit-for-bit (RFC 1321) in namespace `MD5`
   over `Nat`, validated below against the standard test vectors;
 * an openpyxl worksheet row is a function from Excel column numbers to
   cells (column 1 = requester label cell, column `2 + j` = slot `j`).
A raised Python exception is an `Except.error`.
-/

/-- Whitespace characters for the `str.strip` model. -/
def isSpaceC (c : Char) : Bool := c = ' ' ∨ c = '\t' ∨ c = '\n' ∨ c = '\r'

/-- Drop leading whitespace characters. -/
def dropLeading : List Char → List Char
  | [] => []
  | c :: cs => if isSpaceC c then dropLeading cs else c :: cs

/-- Python `str.strip()`: remove leading and trailing whitespace. -/
def pyStrip (s : String) : String :=
  String.mk ((dropLeading ((dropLeading s.data).reverse)).reverse)

/-- Python slicing `s[:n]` over code points. -/
def pyTake (s : String) (n : Nat) : String := String.mk (s.data.take n)

def isDigitC (c : Char) : Bool := 48 ≤ c.toNat ∧ c.toNat ≤ 57

def digitVal (c : Char) : Nat := c.toNat - 48

/-- Model of `pd.to_datetime` on a time-of-day string, as minutes since
midnight; `none` means the pandas call raises. Restricted to the
`HH:MM` / `H:MM` shapes (the only ones the app ever produces). -/
def parseHM (s : String) : Option Nat :=
  match s.data with
  | [h1, h2, c, m1, m2] =>
    if isDigitC h1 ∧ isDigitC h2 ∧ c = ':' ∧ isDigitC m1 ∧ isDigitC m2 then
      if 10 * digitVal h1 + digitVal h2 < 24 ∧ 10 * digitVal m1 + digitVal m2 < 60 then
        some (60 * (10 * digitVal h1 + digitVal h2) + (10 * digitVal m1 + digitVal m2))
      else none
    else none
  | [h1, c, m1, m2] =>
    if isDigitC h1 ∧ c = ':' ∧ isDigitC m1 ∧ isDigitC m2 then
      if digitVal h1 < 24 ∧ 10 * digitVal m1 + digitVal m2 < 60 then
        some (60 * digitVal h1 + (10 * digitVal m1 + digitVal m2))
      else none
    else none
  | _ => none

def digitChar (n : Nat) : Char := Char.ofNat (48 + n)

/-- Model of `.strftime("%H:%M")` on a time value given in minutes. -/
def fmtHM (m : Nat) : String :=
  let h := (m / 60) % 24
  let mm := m % 60
  String.mk [digitChar (h / 10), digitChar (h % 10), ':',
             digitChar (mm / 10), digitChar (mm % 10)]

/-- Minute values generated by
`pd.date_range(base, end, freq=f"{step}min")` for a positive `step`:
the inclusive arithmetic sequence from `s` up to the largest value
`≤ e`; empty when `e < s`. -/
def slotMinutes (s e step : Nat) : List Nat :=
  if e < s then [] else (List.range ((e - s) / step + 1)).map (fun i => s + i * step)

/-- `time_slots` from `src/form.py` (identical in `src/app.py`):
format the `pd.date_range` values as `%H:%M` labels. `none` models the
pandas exceptions (unparseable bound, zero frequency rejected by
`to_offset`). -/
def time_slots (day_start day_end : String) (step_min : Nat) : Option (List String) :=
  match parseHM day_start, parseHM day_end with
  | some s, some e =>
      if step_min = 0 then none
      else some ((slotMinutes s e step_min).map fmtHM)
  | _, _ => none

-- Sanity checks on concrete evaluation of the time layer.
example : parseHM "09:00" = some 540 := by decide
example : parseHM "9:05" = some 545 := by decide
example : parseHM "garbage" = none := by decide
example : fmtHM 540 = "09:00" := by decide
example : time_slots "09:00" "10:00" 15
    = some ["09:00", "09:15", "09:30", "09:45", "10:00"] := by decide

/-! ### MD5 (RFC 1321), over `Nat` with explicit `% 2^32`

`name_to_color` computes `int(hashlib.md5(name.encode("utf-8")).hexdigest(), 16)`;
we implement the digest bit-for-bit and validate it against the standard
test vectors. -/

/-- UTF-8 encoding of one code point, as byte values. -/
def utf8Bytes (c : Nat) : List Nat :=
  if c < 0x80 then [c]
  else if c < 0x800 then [0xC0 + c / 64, 0x80 + c % 64]
  else if c < 0x10000 then
    [0xE0 + c / 4096, 0x80 + (c / 64) % 64, 0x80 + c % 64]
  else
    [0xF0 + c / 262144, 0x80 + (c / 4096) % 64, 0x80 + (c / 64) % 64, 0x80 + c % 64]

/-- `name.encode("utf-8")` as a list of byte values. -/
def utf8Encode (s : String) : List Nat :=
  (s.data.map (fun ch => utf8Bytes ch.toNat)).flatten

namespace MD5

def M32 : Nat := 4294967296

def add32 (a b : Nat) : Nat := (a + b) % M32

def not32 (x : Nat) : Nat := x ^^^ (M32 - 1)

def rotl (x n : Nat) : Nat := ((x <<< n) % M32) ||| ((x % M32) >>> (32 - n))

/-- Round constants `K[i] = floor(abs(sin(i+1)) * 2^32)` (RFC 1321). -/
def K : List Nat :=
  [0xd76aa478, 0xe8c7b756, 0x242070db, 0xc1bdceee,
   0xf57c0faf, 0x4787c62a, 0xa8304613, 0xfd469501,
   0x698098d8, 0x8b44f7af, 0xffff5bb1, 0x895cd7be,
   0x6b901122, 0xfd987193, 0xa679438e, 0x49b40821,
   0xf61e2562, 0xc040b340, 0x265e5a51, 0xe9b6c7aa,
   0xd62f105d, 0x02441453, 0xd8a1e681, 0xe7d3fbc8,
   0x21e1cde6, 0xc33707d6, 0xf4d50d87, 0x455a14ed,
   0xa9e3e905, 0xfcefa3f8, 0x676f02d9, 0x8d2a4c8a,
   0xfffa3942, 0x8771f681, 0x6d9d6122, 0xfde5380c,
   0xa4beea44, 0x4bdecfa9, 0xf6bb4b60, 0xbebfbc70,
   0x289b7ec6, 0xeaa127fa, 0xd4ef3085, 0x04881d05,
   0xd9d4d039, 0xe6db99e5, 0x1fa27cf8, 0xc4ac5665,
   0xf4292244, 0x432aff97, 0xab9423a7, 0xfc93a039,
   0x655b59c3, 0x8f0ccc92, 0xffeff47d, 0x85845dd1,
   0x6fa87e4f, 0xfe2ce6e0, 0xa3014314, 0x4e0811a1,
   0xf7537e82, 0xbd3af235, 0x2ad7d2bb, 0xeb86d391]

/-- Per-round left-rotation amounts (RFC 1321). -/
def S : List Nat :=
  [7, 12, 17, 22, 7, 12, 17, 22, 7, 12, 17, 22, 7, 12, 17, 22,
   5,  9, 14, 20, 5,  9, 14, 20, 5,  9, 14, 20, 5,  9, 14, 20,
   4, 11, 16, 23, 4, 11, 16, 23, 4, 11, 16, 23, 4, 11, 16, 23,
   6, 10, 15, 21, 6, 10, 15, 21, 6, 10, 15, 21, 6, 10, 15, 21]

/-- 8-byte little-endian encoding of the bit length. -/
def le8 (n : Nat) : List Nat :=
  [n % 256, (n >>> 8) % 256, (n >>> 16) % 256, (n >>> 24) % 256,
   (n >>> 32) % 256, (n >>> 40) % 256, (n >>> 48) % 256, (n >>> 56) % 256]

/-- 4-byte little-endian encoding of a 32-bit word. -/
def le4 (n : Nat) : List Nat :=
  [n % 256, (n >>> 8) % 256, (n >>> 16) % 256, (n >>> 24) % 256]

/-- MD5 padding: append `0x80`, zero-fill to 56 mod 64, then the 64-bit
little-endian bit length. -/
def padMsg (msg : List Nat) : List Nat :=
  let z := (64 + 56 - ((msg.length + 1) % 64)) % 64
  msg ++ [0x80] ++ List.replicate z 0 ++ le8 ((8 * msg.length) % (2 ^ 64))

/-- Group bytes into little-endian 32-bit words. -/
def leWords : List Nat → List Nat
  | b0 :: b1 :: b2 :: b3 :: rest =>
      (b0 + 256 * b1 + 65536 * b2 + 16777216 * b3) :: leWords rest
  | _ => []

/-- One of the 64 MD5 rounds. -/
def round (m : List Nat) (st : Nat × Nat × Nat × Nat) (i : Nat) :
    Nat × Nat × Nat × Nat :=
  let a := st.1
  let b := st.2.1
  let c := st.2.2.1
  let d := st.2.2.2
  let fg : Nat × Nat :=
    if i < 16 then ((b &&& c) ||| (not32 b &&& d), i)
    else if i < 32 then ((d &&& b) ||| (not32 d &&& c), (5 * i + 1) % 16)
    else if i < 48 then (b ^^^ c ^^^ d, (3 * i + 5) % 16)
    else (c ^^^ (b ||| not32 d), (7 * i) % 16)
  let f := (fg.1 + a + K.getD i 0 + m.getD fg.2 0) % M32
  (d, add32 b (rotl f (S.getD i 0)), b, c)

/-- Process one 64-byte block. -/
def processBlock (st : Nat × Nat × Nat × Nat) (block : List Nat) :
    Nat × Nat × Nat × Nat :=
  let m := leWords block
  let r := (List.range 64).foldl (round m) st
  (add32 st.1 r.1, add32 st.2.1 r.2.1, add32 st.2.2.1 r.2.2.1,
   add32 st.2.2.2 r.2.2.2)

/-- Split into 64-byte chunks (structural recursion on a fuel bound so
that the kernel can evaluate it). -/
def chunksAux : Nat → List Nat → List (List Nat)
  | 0, _ => []
  | _, [] => []
  | fuel + 1, l => l.take 64 :: chunksAux fuel (l.drop 64)

def chunks64 (l : List Nat) : List (List Nat) := chunksAux l.length l

/-- The 16 digest bytes of a byte message. -/
def md5Bytes (msg : List Nat) : List Nat :=
  let st := (chunks64 (padMsg msg)).foldl processBlock
    (0x67452301, 0xefcdab89, 0x98badcfe, 0x10325476)
  le4 st.1 ++ le4 st.2.1 ++ le4 st.2.2.1 ++ le4 st.2.2.2

/-- `int(hashlib.md5(s.encode("utf-8")).hexdigest(), 16)`: the digest
bytes read as one big-endian integer. -/
def md5Int (s : String) : Nat :=
  (md5Bytes (utf8Encode s)).foldl (fun acc b => 256 * acc + b) 0

end MD5

-- RFC 1321 test vectors: md5("") and md5("abc").
example : MD5.md5Bytes [] =
    [0xd4, 0x1d, 0x8c, 0xd9, 0x8f, 0x00, 0xb2, 0x04,
     0xe9, 0x80, 0x09, 0x98, 0xec, 0xf8, 0x42, 0x7e] := by decide
example : MD5.md5Bytes (utf8Encode "abc") =
    [0x90, 0x01, 0x50, 0x98, 0x3c, 0xd2, 0x4f, 0xb0,
     0xd6, 0x96, 0x3f, 0x7d, 0x28, 0xe1, 0x7f, 0x72] := by decide

/-! ### Color assigner (`name_to_color`, identical in both files) -/

/-- The fixed ordered palette of 12 pastel hex colors (local list
`palette` in `name_to_color`). -/
def palette : List String :=
  ["#CFE8FF", "#FFD6A5", "#B9FBC0", "#FFADAD", "#FDFFB6", "#A0C4FF",
   "#CAFFBF", "#9BF6FF", "#F1C0E8", "#BDB2FF", "#FFC6FF", "#E0F7FA"]

/-- `name_to_color`: `palette[int(md5(name.encode("utf-8")).hexdigest(), 16) % len(palette)]`. -/
def name_to_color (name : String) : String :=
  palette.get ⟨MD5.md5Int name % palette.length, Nat.mod_lt _ (by decide)⟩

/-! ### Preference records and worksheet rows -/

/-- One stored preference row, restricted to the fields the grid builder
reads. `user` is the requester-key column (`user_name` in `src/form.py`,
`group_name` in `src/app.py`); `start`/`end_` are the stored time strings
(`end` is a Lean keyword); `priority` is the rank after
`int(rec["priority"])`. -/
structure Record where
  user : String
  date : String
  place : String
  start : String
  end_ : String
  priority : Nat
deriving DecidableEq, Repr

/-- One worksheet cell: openpyxl `cell.value` (text) and the applied
fill color (none = no `PatternFill` set). -/
structure Cell where
  value : Option String := none
  fill : Option String := none
deriving DecidableEq, Repr

/-- One worksheet row, indexed by Excel column number
(column 1 = requester label cell, column `2 + j` = slot `j`). -/
def Row : Type := Nat → Cell

/-- `f"第{pr}希望"`: the rank label written into covered cells. -/
def rankLabel (pr : Nat) : String := "第" ++ Nat.repr pr ++ "希望"

/-- `cell.value = f"{cell.value},{label}" if cell.value else label`
(`None` and the empty string are both falsy in Python). -/
def appendLabel (old : Option String) (label : String) : String :=
  match old with
  | none => label
  | some s => if s = "" then label else s ++ "," ++ label

/-- Writing one cell of the span: set the fill and append the label. -/
def updateCell (row : Row) (c : Nat) (fillc label : String) : Row :=
  fun j => if j = c then
    { value := some (appendLabel (row c).value label), fill := some fillc }
  else row j

/-- The loop `for c in range(start_col, end_col_exclusive)` writing the
record's span. -/
def colorCells (fillc label : String) (a b : Nat) (row : Row) : Row :=
  (List.range' a (b - a)).foldl (fun acc c => updateCell acc c fillc label) row

/-- Python `list.index`, as an `Option` (`none` models the raised
`ValueError`): index of the first occurrence. -/
def listIndex (l : List String) (x : String) : Option Nat :=
  match l with
  | [] => none
  | y :: ys => if y = x then some 0 else (listIndex ys x).map (· + 1)

/-- `validate_range` (identical in both files):
`pd.to_datetime(start) < pd.to_datetime(end)`. The `Except.error` is the
exception pandas raises on an unparseable argument. -/
def validate_range (s e : String) : Except Unit Bool :=
  match parseHM s, parseHM e with
  | some a, some b => .ok (decide (a < b))
  | _, _ => .error ()

/-- `pandas.unique` over the requester column: distinct values in
first-occurrence order (structural recursion on a fuel bound so that the
kernel can evaluate it). -/
def uniqueFirstAux : Nat → List String → List String
  | 0, _ => []
  | _, [] => []
  | fuel + 1, y :: ys => y :: uniqueFirstAux fuel (ys.filter (fun z => z != y))

def uniqueFirst (l : List String) : List String := uniqueFirstAux l.length l

/-- The fresh row the builder starts from for requester `user`: the
label cell holds the name (no fill), every other cell is empty. -/
def initRow (user : String) : Row :=
  fun j => if j = 1 then { value := some user, fill := none } else {}

example : listIndex ["a", "b", "c"] "b" = some 1 := by decide
example : listIndex ["a", "b", "c"] "x" = none := by decide
example : validate_range "09:00" "10:00" = .ok true := by rfl
example : validate_range "10:00" "09:00" = .ok false := by rfl
example : validate_range "garbage" "10:00" = .error () := by rfl
example : uniqueFirst ["a", "b", "a", "c", "b"] = ["a", "b", "c"] := by decide

/-! ### The grid builder and workbook assembler, per schema variant

`FormPy` embeds `make_excel_by_date` of `src/form.py` (individual
requesters, `user_name` column); `AppPy` embeds `src/app.py` (group
requesters, `group_name` column, with the extra try/except reformatting
of the stored time strings). The openpyxl decoration (borders, widths,
alignment, bold header font) carries no data and is not modelled. -/

/-- One sheet: truncated title, header row, and one labelled row per
distinct requester in first-occurrence order. -/
structure Sheet where
  title : String
  header : List String
  rows : List (String × Row)

/-- Errors of the export path: `dataError` is the
`ValueError("この日付のデータがありません。")` raised for a date with no
records; `parseError` is any exception escaping the per-record loop
(pandas parse failure inside `validate_range`). -/
inductive ExcErr where
  | dataError
  | parseError
deriving DecidableEq, Repr

namespace FormPy

/-- The body of `for _, rec in sub.iterrows()` in `src/form.py`:
validate the raw stored strings (`validate_range` may raise), look both
labels up on the axis (a `ValueError` is caught and skips the record),
then color the half-open column span. -/
def processRecord (slots : List String) (fillc : String) (row : Row)
    (rec : Record) : Except Unit Row :=
  match validate_range rec.start rec.end_ with
  | .error e => .error e
  | .ok false => .ok row
  | .ok true =>
    match listIndex slots rec.start, listIndex slots rec.end_ with
    | some s_idx, some e_idx =>
        .ok (colorCells fillc (rankLabel rec.priority) (2 + s_idx) (2 + e_idx) row)
    | _, _ => .ok row

/-- One requester's row: start from the labelled empty row and process
that requester's records in stored order, with the single fill color
`name_to_color user`. -/
def buildRow (slots : List String) (user : String) (recs : List Record) :
    Except Unit Row :=
  recs.foldlM (fun row rec => processRecord slots (name_to_color user) row rec)
    (initRow user)

/-- The `for r, user in enumerate(users, start=2)` loop: one row per
distinct requester. -/
def buildRows (slots : List String) (df_p : List Record) :
    List String → Except Unit (List (String × Row))
  | [] => .ok []
  | u :: us => do
      let r ← buildRow slots u (df_p.filter (fun rec => rec.user == u))
      let rest ← buildRows slots df_p us
      .ok ((u, r) :: rest)

/-- One place's sheet. -/
def buildSheet (slots : List String) (place : String) (df_p : List Record) :
    Except Unit Sheet := do
  let rows ← buildRows slots df_p (uniqueFirst (df_p.map (·.user)))
  .ok { title := pyTake place 31, header := "利用者" :: slots, rows := rows }

/-- The `for place in ALLOWED_PLACES` loop. -/
def buildSheets (slots : List String) (df_day : List Record) :
    List String → Except Unit (List Sheet)
  | [] => .ok []
  | place :: rest => do
      let sh ← buildSheet slots place (df_day.filter (fun r => r.place == place))
      let shs ← buildSheets slots df_day rest
      .ok (sh :: shs)

/-- `make_excel_by_date(df, date_str)` of `src/form.py`, parametrized by
the configured places and slot axis. -/
def make_excel_by_date (places slots : List String) (df : List Record)
    (date_str : String) : Except ExcErr (List Sheet) :=
  let df_day := df.filter (fun r => r.date == date_str)
  if df_day.isEmpty then .error .dataError
  else (buildSheets slots df_day places).mapError (fun _ => .parseError)

/-- The admin-tab loop `for d in target_dates: try: make_excel_by_date …
except …`: each date is exported independently; a failure is reported
for that date only. -/
def exportDates (places slots : List String) (df : List Record)
    (dates : List String) : List (String × Except ExcErr (List Sheet)) :=
  dates.map (fun d => (d, make_excel_by_date places slots df d))

end FormPy

namespace AppPy

/-- The per-record body in `src/app.py`: reformat both stored strings
inside `try/except` (an unparseable value skips the record), then
validate, look up, and color exactly as in `src/form.py`. -/
def processRecord (slots : List String) (fillc : String) (row : Row)
    (rec : Record) : Except Unit Row :=
  match parseHM rec.start, parseHM rec.end_ with
  | some a, some b =>
    let s := fmtHM a
    let e := fmtHM b
    match validate_range s e with
    | .error err => .error err
    | .ok false => .ok row
    | .ok true =>
      match listIndex slots s, listIndex slots e with
      | some s_idx, some e_idx =>
          .ok (colorCells fillc (rankLabel rec.priority) (2 + s_idx) (2 + e_idx) row)
      | _, _ => .ok row
  | _, _ => .ok row

def buildRow (slots : List String) (user : String) (recs : List Record) :
    Except Unit Row :=
  recs.foldlM (fun row rec => processRecord slots (name_to_color user) row rec)
    (initRow user)

def buildRows (slots : List String) (df_p : List Record) :
    List String → Except Unit (List (String × Row))
  | [] => .ok []
  | u :: us => do
      let r ← buildRow slots u (df_p.filter (fun rec => rec.user == u))
      let rest ← buildRows slots df_p us
      .ok ((u, r) :: rest)

def buildSheet (slots : List String) (place : String) (df_p : List Record) :
    Except Unit Sheet := do
  let rows ← buildRows slots df_p (uniqueFirst (df_p.map (·.user)))
  .ok { title := pyTake place 31, header := "団体名" :: slots, rows := rows }

def buildSheets (slots : List String) (df_day : List Record) :
    List String → Except Unit (List Sheet)
  | [] => .ok []
  | place :: rest => do
      let sh ← buildSheet slots place (df_day.filter (fun r => r.place == place))
      let shs ← buildSheets slots df_day rest
      .ok (sh :: shs)

/-- `make_excel_by_date(df, date_str)` of `src/app.py`. -/
def make_excel_by_date (places slots : List String) (df : List Record)
    (date_str : String) : Except ExcErr (List Sheet) :=
  let df_day := df.filter (fun r => r.date == date_str)
  if df_day.isEmpty then .error .dataError
  else (buildSheets slots df_day places).mapError (fun _ => .parseError)

def exportDates (places slots : List String) (df : List Record)
    (dates : List String) : List (String × Except ExcErr (List Sheet)) :=
  dates.map (fun d => (d, make_excel_by_date places slots df d))

end AppPy

/-! ### Submission handlers -/

/-- One of the three hope blocks of the form: its selected
(date, place, start, end). -/
structure Hope where
  date : String
  place : String
  start : String
  end_ : String
deriving DecidableEq, Repr

/-- The loop `for idx, (s, e) in enumerate([(s1, e1), …], start=1)`
collecting range-validation error messages (identical in both files;
`validate_range` may raise). -/
def rangeErrors : List Hope → Nat → Except Unit (List String)
  | [], _ => .ok []
  | h :: rest, idx => do
      let v ← validate_range h.start h.end_
      let tail ← rangeErrors rest (idx + 1)
      .ok (if v then tail else
        ("第" ++ Nat.repr idx ++ "希望の時間範囲が不正です（開始 < 終了）。") :: tail)

namespace FormPy

/-- The stored row `[ts, name, d, p, s, e, rank]` built by the submit
handler of `src/form.py` (the timestamp column is passthrough and not
modelled). -/
def mkRow (name : String) (h : Hope) (rank : Nat) : Record :=
  { user := name, date := h.date, place := h.place,
    start := h.start, end_ := h.end_, priority := rank }

/-- The submit handler of `src/form.py`: `.inl errors` is the rejected
branch (`st.error`, nothing appended), `.inr` the accepted branch with
the three ranked rows appended to the store. Note: the store is never
consulted during validation. -/
def submit (store : List Record) (name : String) (h1 h2 h3 : Hope) :
    Except Unit (List String ⊕ List Record) := do
  let nameErrs := if pyStrip name = "" then ["お名前は必須です。"] else []
  let rErrs ← rangeErrors [h1, h2, h3] 1
  let errors := nameErrs ++ rErrs
  if errors.isEmpty then
    .ok (.inr (store ++ [mkRow name h1 1, mkRow name h2 2, mkRow name h3 3]))
  else .ok (.inl errors)

end FormPy

namespace AppPy

/-- The stored row built by the submit handler of `src/app.py`
(requester key = group name; contact fields and remarks are opaque
passthrough and not modelled). -/
def mkRow (group : String) (h : Hope) (rank : Nat) : Record :=
  { user := group, date := h.date, place := h.place,
    start := h.start, end_ := h.end_, priority := rank }

/-- The submit handler of `src/app.py`: required-field checks on the
five identity/contact inputs, then the same range checks. The store is
never consulted during validation. -/
def submit (store : List Record) (group rep faculty email phone : String)
    (h1 h2 h3 : Hope) : Except Unit (List String ⊕ List Record) := do
  let fieldErrs :=
    (if pyStrip group = "" then ["団体名は必須です。"] else []) ++
    (if pyStrip rep = "" then ["代表者氏名は必須です。"] else []) ++
    (if pyStrip faculty = "" then ["学部は必須です。"] else []) ++
    (if pyStrip email = "" then ["メールアドレスは必須です。"] else []) ++
    (if pyStrip phone = "" then ["電話番号は必須です。"] else [])
  let rErrs ← rangeErrors [h1, h2, h3] 1
  let errors := fieldErrs ++ rErrs
  if errors.isEmpty then
    .ok (.inr (store ++ [mkRow group h1 1, mkRow group h2 2, mkRow group h3 3]))
  else .ok (.inl errors)

end AppPy

/-! ### Helper lemmas: the time layer -/

lemma digitChar_isDigit {d : Nat} (hd : d < 10) : isDigitC (digitChar d) = true := by
  interval_cases d <;> decide

lemma digitVal_digitChar {d : Nat} (hd : d < 10) : digitVal (digitChar d) = d := by
  interval_cases d <;> decide

/-- Every parseable time value is a minute count within one day. -/
lemma parseHM_lt {s : String} {a : Nat} (h : parseHM s = some a) : a < 1440 := by
  unfold parseHM at h
  split at h
  · split_ifs at h with h1 h2
    · obtain ⟨hv24, mv60⟩ := h2
      injection h with h
      omega
  · split_ifs at h with h1 h2
    · obtain ⟨hv24, mv60⟩ := h2
      injection h with h
      omega
  · exact Option.noConfusion h

/-- Formatting then reparsing a minute value within one day is the
identity: `pd.to_datetime(t.strftime("%H:%M"))` recovers `t`. -/
lemma parseHM_fmtHM {m : Nat} (hm : m < 1440) : parseHM (fmtHM m) = some m := by
  have hh : m / 60 < 24 := by omega
  have hmod : (m / 60) % 24 = m / 60 := Nat.mod_eq_of_lt hh
  have e1 := digitChar_isDigit (d := (m / 60) % 24 / 10) (by omega)
  have e2 := digitChar_isDigit (d := (m / 60) % 24 % 10) (by omega)
  have e3 := digitChar_isDigit (d := m % 60 / 10) (by omega)
  have e4 := digitChar_isDigit (d := m % 60 % 10) (by omega)
  have v1 := digitVal_digitChar (d := (m / 60) % 24 / 10) (by omega)
  have v2 := digitVal_digitChar (d := (m / 60) % 24 % 10) (by omega)
  have v3 := digitVal_digitChar (d := m % 60 / 10) (by omega)
  have v4 := digitVal_digitChar (d := m % 60 % 10) (by omega)
  show parseHM (String.mk [digitChar ((m / 60) % 24 / 10), digitChar ((m / 60) % 24 % 10),
    ':', digitChar (m % 60 / 10), digitChar (m % 60 % 10)]) = some m
  unfold parseHM
  simp only [e1, e2, e3, e4, v1, v2, v3, v4]
  split_ifs with hcond <;> simp_all <;> omega

lemma slotMinutes_eq {s e : Nat} (step : Nat) (hse : s ≤ e) :
    slotMinutes s e step
      = (List.range ((e - s) / step + 1)).map (fun i => s + i * step) := by
  simp [slotMinutes, Nat.not_lt.mpr hse]

lemma slotMinutes_length {s e : Nat} (step : Nat) (hse : s ≤ e) :
    (slotMinutes s e step).length = (e - s) / step + 1 := by
  simp [slotMinutes_eq step hse]

lemma slotMinutes_getD {s e step i : Nat} (hse : s ≤ e)
    (hi : i < (e - s) / step + 1) :
    (slotMinutes s e step).getD i 0 = s + i * step := by
  rw [slotMinutes_eq step hse]
  rw [List.getD_eq_getElem?_getD, List.getElem?_map, List.getElem?_range hi]
  rfl

lemma slotMinutes_head (s e step : Nat) (hse : s ≤ e) :
    (slotMinutes s e step).head? = some s := by
  rw [slotMinutes_eq step hse, List.range_succ_eq_map]
  simp

lemma slotMinutes_getLast (s e step : Nat) (hse : s ≤ e) :
    (slotMinutes s e step).getLast? = some (s + (e - s) / step * step) := by
  rw [slotMinutes_eq step hse, List.range_succ, List.map_append]
  simp

lemma slotMinutes_pairwise (s e step : Nat) (hstep : 0 < step) :
    (slotMinutes s e step).Pairwise (· < ·) := by
  unfold slotMinutes
  split
  · simp
  · exact (List.pairwise_lt_range _).map _
      (fun a b hab => by
        have := (Nat.mul_lt_mul_right hstep).mpr hab
        omega)

lemma slotMinutes_le {s e step x : Nat} (hx : x ∈ slotMinutes s e step) :
    x ≤ e := by
  unfold slotMinutes at hx
  split at hx
  · simp at hx
  · obtain ⟨i, hi, rfl⟩ := List.mem_map.mp hx
    have hi' : i ≤ (e - s) / step := by
      have := List.mem_range.mp hi
      omega
    have h1 : i * step ≤ (e - s) / step * step := Nat.mul_le_mul_right _ hi'
    have h2 : (e - s) / step * step ≤ e - s := Nat.div_mul_le_self _ _
    omega

lemma time_slots_eq {ds de : String} {s e : Nat} (hds : parseHM ds = some s)
    (hde : parseHM de = some e) {step : Nat} (hstep : 0 < step) :
    time_slots ds de step = some ((slotMinutes s e step).map fmtHM) := by
  simp [time_slots, hds, hde, Nat.pos_iff_ne_zero.mp hstep]

/-- Every generated axis minute is below 1440, so `fmtHM` is injective
on the axis and reparsing a label recovers its minute value. -/
lemma slotMinutes_lt_1440 {s e step x : Nat} (he : e < 1440)
    (hx : x ∈ slotMinutes s e step) : x < 1440 :=
  Nat.lt_of_le_of_lt (slotMinutes_le hx) he

lemma axis_nodup {s e step : Nat} (hstep : 0 < step) (he : e < 1440) :
    ((slotMinutes s e step).map fmtHM).Nodup := by
  have hnd : (slotMinutes s e step).Nodup :=
    (slotMinutes_pairwise s e step hstep).imp (fun h => Nat.ne_of_lt h)
  refine List.Nodup.map_on ?_ hnd
  intro x hx y hy hfe
  have hx' := slotMinutes_lt_1440 he hx
  have hy' := slotMinutes_lt_1440 he hy
  have : some x = some y := by
    rw [← parseHM_fmtHM hx', ← parseHM_fmtHM hy', hfe]
  exact Option.some_injective _ this

/-! ### Helper lemmas: the grid layer -/

/-- The span-coloring loop written pointwise: each column in
`[a, a + n)` gets the fill and the appended label; all other cells are
untouched. -/
lemma foldl_update_apply (fillc label : String) (row : Row) (a n j : Nat) :
    (List.range' a n).foldl (fun acc c => updateCell acc c fillc label) row j =
      if a ≤ j ∧ j < a + n then
        { value := some (appendLabel (row j).value label), fill := some fillc }
      else row j := by
  induction n generalizing a row with
  | zero =>
    simp only [List.range', List.foldl_nil]
    split
    · omega
    · rfl
  | succ n ih =>
    have hr : List.range' a (n + 1) = a :: List.range' (a + 1) n := rfl
    rw [hr, List.foldl_cons, ih]
    by_cases hj : j = a
    · have h1 : ¬(a + 1 ≤ j ∧ j < a + 1 + n) := by omega
      have h2 : a ≤ j ∧ j < a + (n + 1) := by omega
      rw [if_neg h1, if_pos h2]
      simp [updateCell, hj]
    · have hne : (updateCell row a fillc label) j = row j := by
        simp [updateCell, hj]
      by_cases hin : a ≤ j ∧ j < a + (n + 1)
      · have h1 : a + 1 ≤ j ∧ j < a + 1 + n := by omega
        simp only [if_pos h1, if_pos hin, hne]
      · have h1 : ¬(a + 1 ≤ j ∧ j < a + 1 + n) := by omega
        simp only [if_neg h1, if_neg hin, hne]

lemma colorCells_apply (fillc label : String) (a b : Nat) (row : Row) (j : Nat) :
    colorCells fillc label a b row j =
      if a ≤ j ∧ j < b then
        { value := some (appendLabel (row j).value label), fill := some fillc }
      else row j := by
  unfold colorCells
  rw [foldl_update_apply]
  have : (a ≤ j ∧ j < a + (b - a)) ↔ (a ≤ j ∧ j < b) := by omega
  by_cases h : a ≤ j ∧ j < b
  · rw [if_pos (this.mpr h), if_pos h]
  · rw [if_neg (fun hc => h (this.mp hc)), if_neg h]

/-- `list.index` finds the position of the `i`-th element of a
duplicate-free list. -/
lemma listIndex_get {l : List String} (hnd : l.Nodup) {i : Nat}
    (hi : i < l.length) : listIndex l (l.get ⟨i, hi⟩) = some i := by
  induction l generalizing i with
  | nil => simp at hi
  | cons y ys ih =>
    cases i with
    | zero => simp [listIndex]
    | succ i =>
      have hi' : i < ys.length := by simpa using hi
      have hmem : ys.get ⟨i, hi'⟩ ∈ ys := List.get_mem ys i hi'
      have hne : ¬(y = ys.get ⟨i, hi'⟩) := by
        intro h
        exact (List.nodup_cons.mp hnd).1 (h ▸ hmem)
      have : (y :: ys).get ⟨i + 1, hi⟩ = ys.get ⟨i, hi'⟩ := rfl
      rw [this, listIndex, if_neg hne, ih (List.nodup_cons.mp hnd).2 hi']
      rfl

lemma listIndex_getD {l : List String} (hnd : l.Nodup) {i : Nat}
    (hi : i < l.length) : listIndex l (l.getD i "") = some i := by
  rw [List.getD_eq_getElem l _ hi]
  have : l[i] = l.get ⟨i, hi⟩ := rfl
  rw [this, listIndex_get hnd hi]

/-- `pandas.unique` keeps every value that occurs in the column. -/
lemma mem_uniqueFirstAux {l : List String} {x : String} (hx : x ∈ l)
    {fuel : Nat} (hf : l.length ≤ fuel) : x ∈ uniqueFirstAux fuel l := by
  induction fuel generalizing l with
  | zero =>
    cases l with
    | nil => simp at hx
    | cons y ys => simp at hf
  | succ fuel ih =>
    cases l with
    | nil => simp at hx
    | cons y ys =>
      rw [uniqueFirstAux]
      rcases List.mem_cons.mp hx with h | h
      · exact h ▸ List.mem_cons_self _ _
      · by_cases hxy : x = y
        · exact hxy ▸ List.mem_cons_self _ _
        · refine List.mem_cons_of_mem _ (ih ?_ ?_)
          · exact List.mem_filter.mpr ⟨h, by simp [hxy]⟩
          · calc (ys.filter (fun z => z != y)).length
                ≤ ys.length := List.length_filter_le _ _
              _ ≤ fuel := by simpa using hf

lemma mem_uniqueFirst {l : List String} {x : String} (hx : x ∈ l) :
    x ∈ uniqueFirst l :=
  mem_uniqueFirstAux hx (Nat.le_refl _)

/-! ### Helper lemmas: validation and per-record processing -/

lemma validate_range_ok {s e : String} {a b : Nat} (hs : parseHM s = some a)
    (he : parseHM e = some b) :
    validate_range s e = .ok (decide (a < b)) := by
  simp [validate_range, hs, he]

lemma validate_range_error_left {s e : String} (hs : parseHM s = none) :
    validate_range s e = .error () := by
  simp [validate_range, hs]

lemma validate_range_error_right {s e : String} {a : Nat}
    (hs : parseHM s = some a) (he : parseHM e = none) :
    validate_range s e = .error () := by
  simp [validate_range, hs, he]

lemma except_bind_ok {ε α β : Type} (a : α) (g : α → Except ε β) :
    (Except.ok a >>= g) = g a := rfl

lemma except_bind_error {ε α β : Type} (e : ε) (g : α → Except ε β) :
    ((Except.error e : Except ε α) >>= g) = Except.error e := rfl

namespace FormPy

/-- `src/form.py`: a record with a parseable, ordered range whose labels
both sit on the axis colors exactly the half-open Excel-column span
`[2 + s_idx, 2 + e_idx)`. -/
lemma processRecord_span_form {slots : List String} {fillc : String} {row : Row}
    {rec : Record} {a b s_idx e_idx : Nat}
    (hs : parseHM rec.start = some a) (he : parseHM rec.end_ = some b)
    (hab : a < b)
    (hi : listIndex slots rec.start = some s_idx)
    (hj : listIndex slots rec.end_ = some e_idx) :
    processRecord slots fillc row rec =
      .ok (fun j => if 2 + s_idx ≤ j ∧ j < 2 + e_idx then
          { value := some (appendLabel (row j).value (rankLabel rec.priority)),
            fill := some fillc }
        else row j) := by
  have hd : decide (a < b) = true := by simpa using hab
  unfold processRecord
  rw [validate_range_ok hs he, hd, hi, hj]
  show Except.ok
    (colorCells fillc (rankLabel rec.priority) (2 + s_idx) (2 + e_idx) row) = _
  congr 1
  funext j
  exact colorCells_apply _ _ _ _ _ _

/-- `src/form.py`: a record failing `validate_range` (parseable but not
`start < end`) is skipped, leaving the row untouched. -/
lemma processRecord_skip_invalid_form {slots : List String} {fillc : String}
    {row : Row} {rec : Record}
    (hv : validate_range rec.start rec.end_ = .ok false) :
    processRecord slots fillc row rec = .ok row := by
  unfold processRecord
  rw [hv]

/-- `src/form.py`: a valid record whose start or end label is absent
from the axis is skipped (the `ValueError` of `list.index` is caught). -/
lemma processRecord_skip_absent_form {slots : List String} {fillc : String}
    {row : Row} {rec : Record}
    (hv : validate_range rec.start rec.end_ = .ok true)
    (h : listIndex slots rec.start = none ∨ listIndex slots rec.end_ = none) :
    processRecord slots fillc row rec = .ok row := by
  unfold processRecord
  rw [hv]
  rcases h with h | h
  · rw [h]
  · rw [h]
    cases listIndex slots rec.start <;> rfl

/-- `src/form.py`: an exception inside `validate_range` propagates out
of the per-record loop. -/
lemma processRecord_error {slots : List String} {fillc : String}
    {row : Row} {rec : Record}
    (hv : validate_range rec.start rec.end_ = .error ()) :
    processRecord slots fillc row rec = .error () := by
  unfold processRecord
  rw [hv]

end FormPy

namespace AppPy

/-- `src/app.py`: same span coloring after the reformatting step. -/
lemma processRecord_span_app {slots : List String} {fillc : String} {row : Row}
    {rec : Record} {a b s_idx e_idx : Nat}
    (hs : parseHM rec.start = some a) (he : parseHM rec.end_ = some b)
    (hab : a < b)
    (hi : listIndex slots (fmtHM a) = some s_idx)
    (hj : listIndex slots (fmtHM b) = some e_idx) :
    processRecord slots fillc row rec =
      .ok (fun j => if 2 + s_idx ≤ j ∧ j < 2 + e_idx then
          { value := some (appendLabel (row j).value (rankLabel rec.priority)),
            fill := some fillc }
        else row j) := by
  have hd : decide (a < b) = true := by simpa using hab
  have hva : validate_range (fmtHM a) (fmtHM b) = .ok (decide (a < b)) :=
    validate_range_ok (parseHM_fmtHM (parseHM_lt hs)) (parseHM_fmtHM (parseHM_lt he))
  unfold processRecord
  rw [hs, he]
  simp only [hva, hd, hi, hj]
  show Except.ok
    (colorCells fillc (rankLabel rec.priority) (2 + s_idx) (2 + e_idx) row) = _
  congr 1
  funext j
  exact colorCells_apply _ _ _ _ _ _

/-- `src/app.py`: an unparseable stored value is caught by the
`try/except` and the record is skipped. -/
lemma processRecord_skip_unparseable {slots : List String} {fillc : String}
    {row : Row} {rec : Record}
    (h : parseHM rec.start = none ∨ parseHM rec.end_ = none) :
    processRecord slots fillc row rec = .ok row := by
  unfold processRecord
  rcases h with h | h
  · rw [h]
  · rw [h]
    cases parseHM rec.start <;> rfl

/-- `src/app.py`: a parseable record with `start ≥ end` is skipped. -/
lemma processRecord_skip_invalid_app {slots : List String} {fillc : String}
    {row : Row} {rec : Record} {a b : Nat}
    (hs : parseHM rec.start = some a) (he : parseHM rec.end_ = some b)
    (hab : ¬a < b) :
    processRecord slots fillc row rec = .ok row := by
  have hd : decide (a < b) = false := by simpa using hab
  have hva : validate_range (fmtHM a) (fmtHM b) = .ok (decide (a < b)) :=
    validate_range_ok (parseHM_fmtHM (parseHM_lt hs)) (parseHM_fmtHM (parseHM_lt he))
  unfold processRecord
  rw [hs, he]
  simp only [hva, hd]

/-- `src/app.py`: a valid record whose reformatted start or end label is
absent from the axis is skipped. -/
lemma processRecord_skip_absent_app {slots : List String} {fillc : String}
    {row : Row} {rec : Record} {a b : Nat}
    (hs : parseHM rec.start = some a) (he : parseHM rec.end_ = some b)
    (hab : a < b)
    (h : listIndex slots (fmtHM a) = none ∨ listIndex slots (fmtHM b) = none) :
    processRecord slots fillc row rec = .ok row := by
  have hd : decide (a < b) = true := by simpa using hab
  have hva : validate_range (fmtHM a) (fmtHM b) = .ok (decide (a < b)) :=
    validate_range_ok (parseHM_fmtHM (parseHM_lt hs)) (parseHM_fmtHM (parseHM_lt he))
  unfold processRecord
  rw [hs, he]
  simp only [hva, hd]
  rcases h with h | h
  · rw [h]
  · rw [h]
    cases listIndex slots (fmtHM a) <;> rfl

/-- `src/app.py`: the per-record body never raises — every exception
source is inside the `try/except` or evaluates a reformatted label. -/
lemma processRecord_ok (slots : List String) (fillc : String) (row : Row)
    (rec : Record) : ∃ row', processRecord slots fillc row rec = .ok row' := by
  cases hs : parseHM rec.start with
  | none => exact ⟨row, processRecord_skip_unparseable (Or.inl hs)⟩
  | some a =>
    cases he : parseHM rec.end_ with
    | none => exact ⟨row, processRecord_skip_unparseable (Or.inr he)⟩
    | some b =>
      by_cases hab : a < b
      · cases hi : listIndex slots (fmtHM a) with
        | none => exact ⟨row, processRecord_skip_absent_app hs he hab (Or.inl hi)⟩
        | some s_idx =>
          cases hj : listIndex slots (fmtHM b) with
          | none => exact ⟨row, processRecord_skip_absent_app hs he hab (Or.inr hj)⟩
          | some e_idx =>
            exact ⟨_, processRecord_span_app hs he hab hi hj⟩
      · exact ⟨row, processRecord_skip_invalid_app hs he hab⟩

end AppPy

/-! ### Helper lemmas: folds over `Except` -/

/-- A fold whose steps all succeed succeeds. -/
lemma foldlM_except_ok {α β : Type} {f : β → α → Except Unit β} :
    ∀ (l : List α) (init : β),
      (∀ x ∈ l, ∀ acc, ∃ r, f acc x = .ok r) →
      ∃ r, l.foldlM f init = .ok r := by
  intro l
  induction l with
  | nil => exact fun init _ => ⟨init, rfl⟩
  | cons y ys ih =>
    intro init h
    obtain ⟨r, hr⟩ := h y (List.mem_cons_self _ _) init
    rw [List.foldlM_cons, hr, except_bind_ok]
    exact ih r (fun x hx acc => h x (List.mem_cons_of_mem _ hx) acc)

/-- A fold over a list containing an element on which the step always
raises, raises. -/
lemma foldlM_except_error {α β : Type} {f : β → α → Except Unit β} {x : α} :
    ∀ (l : List α) (init : β), x ∈ l → (∀ acc, f acc x = .error ()) →
      l.foldlM f init = .error () := by
  intro l
  induction l with
  | nil => intro init hx; simp at hx
  | cons y ys ih =>
    intro init hx herr
    rw [List.foldlM_cons]
    cases hfy : f init y with
    | error e => cases e; rw [except_bind_error]
    | ok r =>
      rw [except_bind_ok]
      rcases List.mem_cons.mp hx with rfl | hx'
      · rw [herr init] at hfy
        exact Except.noConfusion hfy
      · exact ih r hx' herr

/-- Removing an element on which the step is the identity does not
change the fold. -/
lemma foldlM_except_skip {α β : Type} {f : β → α → Except Unit β} {x : α}
    (hsk : ∀ acc, f acc x = .ok acc) :
    ∀ (l1 l2 : List α) (init : β),
      (l1 ++ x :: l2).foldlM f init = (l1 ++ l2).foldlM f init := by
  intro l1
  induction l1 with
  | nil =>
    intro l2 init
    simp only [List.nil_append, List.foldlM_cons, hsk, except_bind_ok]
  | cons y ys ih =>
    intro l2 init
    simp only [List.cons_append, List.foldlM_cons]
    cases hfy : f init y with
    | error e => rw [except_bind_error, except_bind_error]
    | ok r =>
      rw [except_bind_ok, except_bind_ok]
      exact ih l2 r

/-- An invariant preserved by every successful step holds for a
successful fold's result. -/
lemma foldlM_inv {α β : Type} {P : β → Prop} {f : β → α → Except Unit β}
    (hstep : ∀ acc x r, f acc x = .ok r → P acc → P r) :
    ∀ (l : List α) (init res : β), l.foldlM f init = .ok res → P init → P res := by
  intro l
  induction l with
  | nil =>
    intro init res h hP
    have h' : Except.ok init = Except.ok res := h
    cases Except.ok.inj h'
    exact hP
  | cons y ys ih =>
    intro init res h hP
    rw [List.foldlM_cons] at h
    cases hfy : f init y with
    | error e =>
      rw [hfy, except_bind_error] at h
      exact Except.noConfusion h
    | ok r =>
      rw [hfy, except_bind_ok] at h
      exact ih r res h (hstep init y r hfy hP)

/-! ### Helper lemmas: rows, sheets, and the workbook assembler -/

namespace FormPy

lemma buildRows_cons_form (slots : List String) (df_p : List Record) (u : String)
    (us : List String) :
    buildRows slots df_p (u :: us)
      = (buildRow slots u (df_p.filter (fun rec => rec.user == u))) >>= fun r =>
        (buildRows slots df_p us) >>= fun rest => Except.ok ((u, r) :: rest) := rfl

lemma buildRow_error {slots : List String} {user : String} {recs : List Record}
    {rec : Record} (hrec : rec ∈ recs)
    (herr : validate_range rec.start rec.end_ = .error ()) :
    buildRow slots user recs = .error () :=
  foldlM_except_error recs _ hrec (fun _ => processRecord_error herr)

lemma processRecord_ok_of_parse {slots : List String} {fillc : String}
    {row : Row} {rec : Record} {a b : Nat}
    (hs : parseHM rec.start = some a) (he : parseHM rec.end_ = some b) :
    ∃ row', processRecord slots fillc row rec = .ok row' := by
  unfold processRecord
  rw [validate_range_ok hs he]
  cases decide (a < b) with
  | false => exact ⟨row, rfl⟩
  | true =>
    cases listIndex slots rec.start with
    | none => exact ⟨row, rfl⟩
    | some s_idx =>
      cases listIndex slots rec.end_ with
      | none => exact ⟨row, rfl⟩
      | some e_idx => exact ⟨_, rfl⟩

lemma buildRow_ok_form {slots : List String} {user : String} {recs : List Record}
    (h : ∀ rec ∈ recs, (∃ a, parseHM rec.start = some a) ∧
      (∃ b, parseHM rec.end_ = some b)) :
    ∃ r, buildRow slots user recs = .ok r := by
  apply foldlM_except_ok
  intro rec hrec acc
  obtain ⟨⟨a, ha⟩, ⟨b, hb⟩⟩ := h rec hrec
  exact processRecord_ok_of_parse ha hb

lemma buildRows_ok_form {slots : List String} {df_p : List Record} {us : List String}
    (h : ∀ u ∈ us, ∃ r,
      buildRow slots u (df_p.filter (fun rec => rec.user == u)) = .ok r) :
    ∃ rs, buildRows slots df_p us = .ok rs := by
  induction us with
  | nil => exact ⟨[], rfl⟩
  | cons u us ih =>
    obtain ⟨r, hr⟩ := h u (List.mem_cons_self _ _)
    obtain ⟨rs, hrs⟩ := ih (fun v hv => h v (List.mem_cons_of_mem _ hv))
    refine ⟨(u, r) :: rs, ?_⟩
    rw [buildRows_cons_form, hr, except_bind_ok, hrs, except_bind_ok]

lemma buildRows_error {slots : List String} {df_p : List Record}
    {us : List String} {u : String} (hu : u ∈ us)
    (herr : buildRow slots u (df_p.filter (fun rec => rec.user == u)) = .error ()) :
    buildRows slots df_p us = .error () := by
  induction us with
  | nil => simp at hu
  | cons v us ih =>
    rw [buildRows_cons_form]
    rcases List.mem_cons.mp hu with rfl | hu'
    · rw [herr, except_bind_error]
    · cases hv : buildRow slots v (df_p.filter (fun rec => rec.user == v)) with
      | error e => cases e; rw [except_bind_error]
      | ok r => rw [except_bind_ok, ih hu', except_bind_error]

lemma buildSheet_eq_form (slots : List String) (place : String) (df_p : List Record) :
    buildSheet slots place df_p
      = (buildRows slots df_p (uniqueFirst (df_p.map (·.user)))) >>= fun rows =>
        Except.ok { title := pyTake place 31, header := "利用者" :: slots,
                    rows := rows } := rfl

lemma buildSheets_cons_form (slots : List String) (df_day : List Record)
    (p : String) (ps : List String) :
    buildSheets slots df_day (p :: ps)
      = (buildSheet slots p (df_day.filter (fun r => r.place == p))) >>= fun sh =>
        (buildSheets slots df_day ps) >>= fun shs => Except.ok (sh :: shs) := rfl

lemma buildSheets_ok_form {slots : List String} {df_day : List Record}
    {ps : List String}
    (h : ∀ p ∈ ps, ∃ sh,
      buildSheet slots p (df_day.filter (fun r => r.place == p)) = .ok sh) :
    ∃ shs, buildSheets slots df_day ps = .ok shs := by
  induction ps with
  | nil => exact ⟨[], rfl⟩
  | cons p ps ih =>
    obtain ⟨sh, hsh⟩ := h p (List.mem_cons_self _ _)
    obtain ⟨shs, hshs⟩ := ih (fun q hq => h q (List.mem_cons_of_mem _ hq))
    refine ⟨sh :: shs, ?_⟩
    rw [buildSheets_cons_form, hsh, except_bind_ok, hshs, except_bind_ok]

lemma buildSheets_error {slots : List String} {df_day : List Record}
    {ps : List String} {p : String} (hp : p ∈ ps)
    (herr : buildSheet slots p (df_day.filter (fun r => r.place == p)) = .error ()) :
    buildSheets slots df_day ps = .error () := by
  induction ps with
  | nil => simp at hp
  | cons q ps ih =>
    rw [buildSheets_cons_form]
    rcases List.mem_cons.mp hp with rfl | hp'
    · rw [herr, except_bind_error]
    · cases hq : buildSheet slots q (df_day.filter (fun r => r.place == q)) with
      | error e => cases e; rw [except_bind_error]
      | ok sh => rw [except_bind_ok, ih hp', except_bind_error]

end FormPy

namespace AppPy

lemma buildRows_cons_app (slots : List String) (df_p : List Record) (u : String)
    (us : List String) :
    buildRows slots df_p (u :: us)
      = (buildRow slots u (df_p.filter (fun rec => rec.user == u))) >>= fun r =>
        (buildRows slots df_p us) >>= fun rest => Except.ok ((u, r) :: rest) := rfl

lemma buildRow_ok_app (slots : List String) (user : String) (recs : List Record) :
    ∃ r, buildRow slots user recs = .ok r := by
  apply foldlM_except_ok
  intro rec _ acc
  exact processRecord_ok slots (name_to_color user) acc rec

lemma buildRows_ok_app (slots : List String) (df_p : List Record)
    (us : List String) : ∃ rs, buildRows slots df_p us = .ok rs := by
  induction us with
  | nil => exact ⟨[], rfl⟩
  | cons u us ih =>
    obtain ⟨r, hr⟩ := buildRow_ok_app slots u (df_p.filter (fun rec => rec.user == u))
    obtain ⟨rs, hrs⟩ := ih
    refine ⟨(u, r) :: rs, ?_⟩
    rw [buildRows_cons_app, hr, except_bind_ok, hrs, except_bind_ok]

lemma buildSheet_eq_app (slots : List String) (place : String) (df_p : List Record) :
    buildSheet slots place df_p
      = (buildRows slots df_p (uniqueFirst (df_p.map (·.user)))) >>= fun rows =>
        Except.ok { title := pyTake place 31, header := "団体名" :: slots,
                    rows := rows } := rfl

lemma buildSheet_ok (slots : List String) (place : String) (df_p : List Record) :
    ∃ sh, buildSheet slots place df_p = .ok sh := by
  obtain ⟨rs, hrs⟩ := buildRows_ok_app slots df_p (uniqueFirst (df_p.map (·.user)))
  exact ⟨_, by rw [buildSheet_eq_app, hrs, except_bind_ok]⟩

lemma buildSheets_cons_app (slots : List String) (df_day : List Record)
    (p : String) (ps : List String) :
    buildSheets slots df_day (p :: ps)
      = (buildSheet slots p (df_day.filter (fun r => r.place == p))) >>= fun sh =>
        (buildSheets slots df_day ps) >>= fun shs => Except.ok (sh :: shs) := rfl

lemma buildSheets_ok_app (slots : List String) (df_day : List Record)
    (ps : List String) : ∃ shs, buildSheets slots df_day ps = .ok shs := by
  induction ps with
  | nil => exact ⟨[], rfl⟩
  | cons p ps ih =>
    obtain ⟨sh, hsh⟩ := buildSheet_ok slots p (df_day.filter (fun r => r.place == p))
    obtain ⟨shs, hshs⟩ := ih
    refine ⟨sh :: shs, ?_⟩
    rw [buildSheets_cons_app, hsh, except_bind_ok, hshs, except_bind_ok]

end AppPy

lemma mapError_ok {ε ε' α : Type} (f : ε → ε') (a : α) :
    Except.mapError f (.ok a) = (.ok a : Except ε' α) := rfl

lemma mapError_error {ε ε' α : Type} (f : ε → ε') (e : ε) :
    Except.mapError f (.error e : Except ε α) = (.error (f e) : Except ε' α) := rfl

namespace FormPy

lemma make_excel_eq_form (places slots : List String) (df : List Record) (d : String) :
    make_excel_by_date places slots df d
      = if (df.filter (fun r => r.date == d)).isEmpty then .error .dataError
        else (buildSheets slots (df.filter (fun r => r.date == d)) places).mapError
          (fun _ => .parseError) := rfl

lemma make_excel_dataError_iff_form (places slots : List String) (df : List Record)
    (d : String) :
    make_excel_by_date places slots df d = .error .dataError ↔
      df.filter (fun r => r.date == d) = [] := by
  rw [make_excel_eq_form]
  by_cases hemp : (df.filter (fun r => r.date == d)).isEmpty
  · rw [if_pos hemp]
    simp [List.isEmpty_iff.mp hemp]
  · rw [if_neg hemp]
    constructor
    · intro h
      cases hb : buildSheets slots (df.filter (fun r => r.date == d)) places with
      | error e =>
        rw [hb, mapError_error] at h
        exact ExcErr.noConfusion (Except.error.inj h)
      | ok shs =>
        rw [hb, mapError_ok] at h
        exact Except.noConfusion h
    · intro h
      exact absurd (by simp [List.isEmpty_iff, h]) hemp

lemma buildSheet_ok_of_parse {slots : List String} {place : String}
    {df_p : List Record}
    (hpar : ∀ r ∈ df_p, (∃ a, parseHM r.start = some a) ∧
      (∃ b, parseHM r.end_ = some b)) :
    ∃ sh, buildSheet slots place df_p = .ok sh := by
  have hrows : ∃ rs,
      buildRows slots df_p (uniqueFirst (df_p.map (·.user))) = .ok rs := by
    apply buildRows_ok_form
    intro u _
    apply buildRow_ok_form
    intro rec hrec
    exact hpar rec (List.mem_of_mem_filter hrec)
  obtain ⟨rs, hrs⟩ := hrows
  exact ⟨_, by rw [buildSheet_eq_form, hrs, except_bind_ok]⟩

lemma make_excel_ok_of_parse {places slots : List String} {df : List Record}
    {d : String}
    (hne : df.filter (fun r => r.date == d) ≠ [])
    (hpar : ∀ r ∈ df.filter (fun r => r.date == d),
      (∃ a, parseHM r.start = some a) ∧ (∃ b, parseHM r.end_ = some b)) :
    ∃ shs, make_excel_by_date places slots df d = .ok shs := by
  rw [make_excel_eq_form]
  rw [if_neg (by simpa [List.isEmpty_iff] using hne)]
  have hsheets : ∃ shs,
      buildSheets slots (df.filter (fun r => r.date == d)) places = .ok shs := by
    apply buildSheets_ok_form
    intro p _
    apply buildSheet_ok_of_parse
    intro r hr
    exact hpar r (List.mem_of_mem_filter hr)
  obtain ⟨shs, h⟩ := hsheets
  exact ⟨shs, by rw [h, mapError_ok]⟩

/-- A single record for the requested date, at a configured place, whose
start or end does not parse, aborts the whole export of `src/form.py`
with an exception escaping `validate_range`. -/
lemma make_excel_parse_abort {places slots : List String} {df : List Record}
    {d : String} {rec : Record}
    (hrec : rec ∈ df) (hdate : rec.date = d) (hplace : rec.place ∈ places)
    (hbad : parseHM rec.start = none ∨ parseHM rec.end_ = none) :
    make_excel_by_date places slots df d = .error .parseError := by
  have hrecday : rec ∈ df.filter (fun r => r.date == d) :=
    List.mem_filter.mpr ⟨hrec, by simp [hdate]⟩
  have hne : ¬(df.filter (fun r => r.date == d)).isEmpty := by
    simp only [List.isEmpty_iff]
    intro h
    rw [h] at hrecday
    simp at hrecday
  have hin_place : rec ∈ (df.filter (fun r => r.date == d)).filter
      (fun r => r.place == rec.place) :=
    List.mem_filter.mpr ⟨hrecday, by simp⟩
  have huser : rec.user ∈ uniqueFirst (((df.filter (fun r => r.date == d)).filter
      (fun r => r.place == rec.place)).map (·.user)) :=
    mem_uniqueFirst (List.mem_map_of_mem _ hin_place)
  have hrecs : rec ∈ ((df.filter (fun r => r.date == d)).filter
      (fun r => r.place == rec.place)).filter (fun r2 => r2.user == rec.user) :=
    List.mem_filter.mpr ⟨hin_place, by simp⟩
  have hverr : validate_range rec.start rec.end_ = .error () := by
    rcases hbad with h | h
    · exact validate_range_error_left h
    · cases hs : parseHM rec.start with
      | none => exact validate_range_error_left hs
      | some a => exact validate_range_error_right hs h
  have hrow := @buildRow_error slots rec.user _ rec hrecs hverr
  have hrows := @buildRows_error slots _ _ _ huser hrow
  have hsheet : buildSheet slots rec.place ((df.filter (fun r => r.date == d)).filter
      (fun r => r.place == rec.place)) = .error () := by
    rw [buildSheet_eq_form, hrows, except_bind_error]
  have hsheets := buildSheets_error hplace hsheet
  rw [make_excel_eq_form, if_neg hne, hsheets, mapError_error]

end FormPy

namespace AppPy

lemma make_excel_eq_app (places slots : List String) (df : List Record) (d : String) :
    make_excel_by_date places slots df d
      = if (df.filter (fun r => r.date == d)).isEmpty then .error .dataError
        else (buildSheets slots (df.filter (fun r => r.date == d)) places).mapError
          (fun _ => .parseError) := rfl

lemma make_excel_dataError_iff_app (places slots : List String) (df : List Record)
    (d : String) :
    make_excel_by_date places slots df d = .error .dataError ↔
      df.filter (fun r => r.date == d) = [] := by
  rw [make_excel_eq_app]
  by_cases hemp : (df.filter (fun r => r.date == d)).isEmpty
  · rw [if_pos hemp]
    simp [List.isEmpty_iff.mp hemp]
  · rw [if_neg hemp]
    constructor
    · intro h
      cases hb : buildSheets slots (df.filter (fun r => r.date == d)) places with
      | error e =>
        rw [hb, mapError_error] at h
        exact ExcErr.noConfusion (Except.error.inj h)
      | ok shs =>
        rw [hb, mapError_ok] at h
        exact Except.noConfusion h
    · intro h
      exact absurd (by simp [List.isEmpty_iff, h]) hemp

/-- `src/app.py`'s assembler succeeds whenever at least one record
matches the date: every per-record failure mode is skipped, so only the
empty-date check can fail. -/
lemma make_excel_ok {places slots : List String} {df : List Record} {d : String}
    (hne : df.filter (fun r => r.date == d) ≠ []) :
    ∃ shs, make_excel_by_date places slots df d = .ok shs := by
  rw [make_excel_eq_app]
  rw [if_neg (by simpa [List.isEmpty_iff] using hne)]
  obtain ⟨shs, h⟩ := buildSheets_ok_app slots (df.filter (fun r => r.date == d)) places
  exact ⟨shs, by rw [h, mapError_ok]⟩

end AppPy

/-! ## Claim theorems -/

/-- C2 counterexample: with `day_end = day_start` (equal bounds, a
positive step — a configuration the claim says must fail with a
`ConfigError`), `time_slots` raises nothing and silently returns the
degenerate one-entry axis `["09:00"]`. -/
theorem time_slots_equal_bounds_cex :
    time_slots "09:00" "09:00" 15 = some ["09:00"] ∧
    (["09:00"] : List String).length < 2 := ⟨by decide, by decide⟩

/-- C2 (amended): the generator performs no configuration check at all.
For `day_end ≤ day_start` (with a positive step) it raises no error and
silently returns a degenerate axis with fewer than 2 entries — empty
exactly when `day_end < day_start`, a single entry when the bounds are
equal. (A non-positive step is rejected inside pandas itself, not by any
`ConfigError` of this code.) -/
theorem time_slots_degenerate_silent (ds de : String) (s e step : Nat)
    (hds : parseHM ds = some s) (hde : parseHM de = some e)
    (hstep : 0 < step) (hle : e ≤ s) :
    ∃ axis, time_slots ds de step = some axis ∧ axis.length < 2 ∧
      (axis = [] ↔ e < s) := by
  refine ⟨(slotMinutes s e step).map fmtHM, time_slots_eq hds hde hstep, ?_, ?_⟩
  · by_cases h : e < s
    · simp [slotMinutes, h]
    · have hse : s ≤ e := by omega
      have h0 : e - s = 0 := by omega
      rw [List.length_map, slotMinutes_length step hse, h0, Nat.zero_div]
      omega
  · constructor
    · intro h
      by_contra hns
      have hse : s ≤ e := by omega
      have hms : slotMinutes s e step = [] := by
        cases hm : slotMinutes s e step with
        | nil => rfl
        | cons x xs =>
          rw [hm] at h
          simp at h
      have hlen := slotMinutes_length step hse
      rw [hms] at hlen
      simp at hlen
    · intro h
      simp [slotMinutes, h]

/-- C2 witness: the amended statement evaluated at the equal-bounds
configuration `("09:00", "09:00", 15)`. -/
theorem time_slots_degenerate_silent_witness :
    parseHM "09:00" = some 540 ∧ (0 : Nat) < 15 ∧ (540 : Nat) ≤ 540 ∧
    ∃ axis, time_slots "09:00" "09:00" 15 = some axis ∧ axis.length < 2 ∧
      (axis = [] ↔ 540 < 540) :=
  ⟨by decide, by decide, by decide,
   time_slots_degenerate_silent "09:00" "09:00" 540 540 15 (by decide) (by decide)
     (by decide) (by decide)⟩

/-- C3 counterexample: `(day_start, day_end, step) = ("09:00", "09:10", 15)`
is a valid configuration (`day_end > day_start`), yet the generated axis
is `["09:00"]`: its last entry is not `day_end` — the end bound is only
inclusive when the step divides the span. -/
theorem time_slots_last_label_cex :
    time_slots "09:00" "09:10" 15 = some ["09:00"] ∧
    ("09:00" : String) ≠ "09:10" := ⟨by decide, by decide⟩

/-- C3 (amended): for every valid configuration with
`day_end > day_start` and positive step — no divisibility assumption —
the axis is strictly increasing (as time values) with no duplicate
labels, has `⌊(day_end − day_start)/step⌋ + 1` entries (floor division),
and its first entry is `day_start` rendered as an `%H:%M` label. Its
last entry is the largest slot `≤ day_end`: it equals
`day_start + ⌊(day_end − day_start)/step⌋·step`, which is `≤ day_end`
while the following slot would already exceed `day_end`; it equals
`day_end` itself exactly under the extra condition that the step divides
`day_end − day_start` (true of the deployed 09:00–18:00 / 15 min
configuration). -/
theorem time_slots_axis_shape (ds de : String) (s e step : Nat)
    (hds : parseHM ds = some s) (hde : parseHM de = some e)
    (hstep : 0 < step) (hlt : s < e) :
    ∃ axis, time_slots ds de step = some axis ∧
      axis = (slotMinutes s e step).map fmtHM ∧
      (slotMinutes s e step).Pairwise (· < ·) ∧
      axis.length = (e - s) / step + 1 ∧
      axis.head? = some (fmtHM s) ∧
      axis.getLast? = some (fmtHM (s + (e - s) / step * step)) ∧
      s + (e - s) / step * step ≤ e ∧
      e < s + ((e - s) / step * step + step) ∧
      (step ∣ (e - s) → axis.getLast? = some (fmtHM e)) ∧
      axis.Nodup := by
  have hse : s ≤ e := Nat.le_of_lt hlt
  have hlast : ((slotMinutes s e step).map fmtHM).getLast?
      = some (fmtHM (s + (e - s) / step * step)) := by
    rw [List.getLast?_map, slotMinutes_getLast s e step hse]
    rfl
  have hfloor : (e - s) / step * step ≤ e - s := Nat.div_mul_le_self _ _
  refine ⟨(slotMinutes s e step).map fmtHM, time_slots_eq hds hde hstep, rfl,
    slotMinutes_pairwise s e step hstep, ?_, ?_, hlast, by omega, ?_, ?_,
    axis_nodup hstep (parseHM_lt hde)⟩
  · rw [List.length_map, slotMinutes_length step hse]
  · rw [List.head?_map, slotMinutes_head s e step hse]
    rfl
  · have hmod : (e - s) % step < step := Nat.mod_lt _ hstep
    have hdm := Nat.div_add_mod (e - s) step
    rw [Nat.mul_comm] at hdm
    omega
  · intro hdvd
    have hc : s + (e - s) / step * step = e := by
      have := Nat.div_mul_cancel hdvd
      omega
    rw [hlast, hc]

/-- C3 witness: the amended statement evaluated at the divisible
configuration `("09:00", "10:00", 15)` and at the non-divisible
configuration `("09:00", "09:10", 15)` (where the axis stops at the
largest slot `09:00 ≤ day_end`). -/
theorem time_slots_axis_shape_witness :
    (parseHM "09:00" = some 540 ∧ (540 : Nat) < 600 ∧ (0 : Nat) < 15 ∧
     ∃ axis, time_slots "09:00" "10:00" 15 = some axis ∧
       axis = (slotMinutes 540 600 15).map fmtHM ∧
       (slotMinutes 540 600 15).Pairwise (· < ·) ∧
       axis.length = (600 - 540) / 15 + 1 ∧
       axis.head? = some (fmtHM 540) ∧
       axis.getLast? = some (fmtHM (540 + (600 - 540) / 15 * 15)) ∧
       540 + (600 - 540) / 15 * 15 ≤ 600 ∧
       600 < 540 + ((600 - 540) / 15 * 15 + 15) ∧
       ((15 : Nat) ∣ (600 - 540) → axis.getLast? = some (fmtHM 600)) ∧
       axis.Nodup) ∧
    (parseHM "09:10" = some 550 ∧ (540 : Nat) < 550 ∧
     ∃ axis, time_slots "09:00" "09:10" 15 = some axis ∧
       axis = (slotMinutes 540 550 15).map fmtHM ∧
       (slotMinutes 540 550 15).Pairwise (· < ·) ∧
       axis.length = (550 - 540) / 15 + 1 ∧
       axis.head? = some (fmtHM 540) ∧
       axis.getLast? = some (fmtHM (540 + (550 - 540) / 15 * 15)) ∧
       540 + (550 - 540) / 15 * 15 ≤ 550 ∧
       550 < 540 + ((550 - 540) / 15 * 15 + 15) ∧
       ((15 : Nat) ∣ (550 - 540) → axis.getLast? = some (fmtHM 550)) ∧
       axis.Nodup) :=
  ⟨⟨by decide, by decide, by decide,
    time_slots_axis_shape "09:00" "10:00" 540 600 15 (by decide) (by decide)
      (by decide) (by decide)⟩,
   ⟨by decide, by decide,
    time_slots_axis_shape "09:00" "09:10" 540 550 15 (by decide) (by decide)
      (by decide) (by decide)⟩⟩

/-- C7: `name_to_color` is content-addressed and deterministic by
construction (a pure function of the identity string, no state, seed,
counter, or insertion order): the palette is the fixed ordered list of
12 colors, and the result is the palette entry indexed by the MD5 hash
of the UTF-8 encoded identity reduced modulo the palette size; in
particular the result is always a palette member. -/
theorem name_to_color_content_addressed :
    palette.length = 12 ∧
    (∀ name, name_to_color name = palette.getD (MD5.md5Int name % 12) "") ∧
    (∀ name, name_to_color name ∈ palette) := by
  refine ⟨by decide, ?_, ?_⟩
  · intro name
    have hlt : MD5.md5Int name % 12 < palette.length := Nat.mod_lt _ (by decide)
    rw [List.getD_eq_getElem _ _ hlt]
    rfl
  · intro name
    exact List.get_mem _ _ _

lemma map_getD_fmt {ms : List Nat} {i : Nat} (hi : i < ms.length) :
    (ms.map fmtHM).getD i "" = fmtHM (ms.getD i 0) := by
  rw [List.getD_eq_getElem _ _ (by simpa using hi), List.getD_eq_getElem _ _ hi,
    List.getElem_map]

/-- C1: on any generated slot axis, a record whose start is axis label
`i` and whose end is axis label `iEnd` (`i < iEnd`) colors exactly the
half-open Excel-column span `[2 + i, 2 + iEnd)` of its requester's row,
appending the rank label to each covered cell — the end label's own
column is never colored by the record; in the adjacent case
`iEnd = i + 1` exactly the single column of label `i` (Excel column
`2 + i`) is written. Holds for the grid builders of both `src/form.py`
and `src/app.py`. -/
theorem grid_adjacent_span_one_column
    (ds de : String) (s e step : Nat) (slots : List String)
    (hds : parseHM ds = some s) (hde : parseHM de = some e) (hstep : 0 < step)
    (hax : time_slots ds de step = some slots)
    (i iEnd : Nat) (hiEnd : iEnd < slots.length) (hlt : i < iEnd)
    (rec : Record) (fillc : String) (row : Row)
    (hstart : rec.start = slots.getD i "")
    (hend : rec.end_ = slots.getD iEnd "") :
    (FormPy.processRecord slots fillc row rec
      = .ok (fun j => if 2 + i ≤ j ∧ j < 2 + iEnd then
          { value := some (appendLabel (row j).value (rankLabel rec.priority)),
            fill := some fillc }
          else row j)) ∧
    (AppPy.processRecord slots fillc row rec
      = .ok (fun j => if 2 + i ≤ j ∧ j < 2 + iEnd then
          { value := some (appendLabel (row j).value (rankLabel rec.priority)),
            fill := some fillc }
          else row j)) ∧
    (iEnd = i + 1 →
      FormPy.processRecord slots fillc row rec
        = .ok (fun j => if j = 2 + i then
            { value := some (appendLabel (row j).value (rankLabel rec.priority)),
              fill := some fillc }
            else row j)) := by
  have hslots : slots = (slotMinutes s e step).map fmtHM := by
    have h := time_slots_eq hds hde hstep
    rw [hax] at h
    exact Option.some.inj h
  subst hslots
  have hse : s ≤ e := by
    by_contra hns
    have hempty : slotMinutes s e step = [] := by
      have : e < s := by omega
      simp [slotMinutes, this]
    rw [hempty] at hiEnd
    simp at hiEnd
  have hiL : iEnd < (slotMinutes s e step).length := by
    rw [List.length_map] at hiEnd
    exact hiEnd
  have hiI : i < (slotMinutes s e step).length := Nat.lt_trans hlt hiL
  have hcount : (slotMinutes s e step).length = (e - s) / step + 1 :=
    slotMinutes_length step hse
  have hai : (slotMinutes s e step).getD i 0 = s + i * step :=
    slotMinutes_getD hse (by omega)
  have hbi : (slotMinutes s e step).getD iEnd 0 = s + iEnd * step :=
    slotMinutes_getD hse (by omega)
  have hbound : ∀ k, k < (slotMinutes s e step).length → s + k * step ≤ e := by
    intro k hk
    have hk' : k ≤ (e - s) / step := by omega
    have h1 : k * step ≤ (e - s) / step * step := Nat.mul_le_mul_right _ hk'
    have h2 : (e - s) / step * step ≤ e - s := Nat.div_mul_le_self _ _
    omega
  have ha1440 : s + i * step < 1440 :=
    Nat.lt_of_le_of_lt (hbound i hiI) (parseHM_lt hde)
  have hb1440 : s + iEnd * step < 1440 :=
    Nat.lt_of_le_of_lt (hbound iEnd hiL) (parseHM_lt hde)
  have hstart' : rec.start = fmtHM (s + i * step) := by
    rw [hstart, map_getD_fmt hiI, hai]
  have hend' : rec.end_ = fmtHM (s + iEnd * step) := by
    rw [hend, map_getD_fmt hiL, hbi]
  have hping : parseHM rec.start = some (s + i * step) := by
    rw [hstart']
    exact parseHM_fmtHM ha1440
  have hpend : parseHM rec.end_ = some (s + iEnd * step) := by
    rw [hend']
    exact parseHM_fmtHM hb1440
  have hab : s + i * step < s + iEnd * step := by
    have := (Nat.mul_lt_mul_right hstep).mpr hlt
    omega
  have hnd : ((slotMinutes s e step).map fmtHM).Nodup :=
    axis_nodup hstep (parseHM_lt hde)
  have hidx1 : listIndex ((slotMinutes s e step).map fmtHM) rec.start = some i := by
    rw [hstart]
    exact listIndex_getD hnd (Nat.lt_trans hlt hiEnd)
  have hidx2 : listIndex ((slotMinutes s e step).map fmtHM) rec.end_
      = some iEnd := by
    rw [hend]
    exact listIndex_getD hnd hiEnd
  have hform := @FormPy.processRecord_span_form _ fillc row rec _ _ _ _
    hping hpend hab hidx1 hidx2
  have happ := @AppPy.processRecord_span_app _ fillc row rec _ _ _ _
    hping hpend hab (by rw [← hstart']; exact hidx1) (by rw [← hend']; exact hidx2)
  refine ⟨hform, happ, ?_⟩
  intro hE
  rw [hform]
  congr 1
  funext j
  subst hE
  by_cases hj : j = 2 + i
  · rw [if_pos (by omega), if_pos hj]
  · rw [if_neg (by omega), if_neg hj]

/-- C1 witness: the adjacent-label case on the axis generated from
`("09:00", "10:00", 15)`: start `09:00` (label 0), end `09:15`
(label 1) colors exactly Excel column 2 (= slot column 0). -/
theorem grid_adjacent_span_one_column_witness :
    time_slots "09:00" "10:00" 15
      = some ["09:00", "09:15", "09:30", "09:45", "10:00"] ∧
    FormPy.processRecord ["09:00", "09:15", "09:30", "09:45", "10:00"] "#CFE8FF"
        (initRow "X")
        { user := "X", date := "2025-10-25", place := "P",
          start := "09:00", end_ := "09:15", priority := 1 }
      = .ok (fun j => if j = 2 + 0 then
          { value := some (appendLabel ((initRow "X") j).value (rankLabel 1)),
            fill := some "#CFE8FF" }
          else (initRow "X") j) :=
  ⟨by decide,
   (grid_adjacent_span_one_column "09:00" "10:00" 540 600 15
      ["09:00", "09:15", "09:30", "09:45", "10:00"] (by decide) (by decide)
      (by decide) (by decide) 0 1 (by decide) (by decide)
      { user := "X", date := "2025-10-25", place := "P",
        start := "09:00", end_ := "09:15", priority := 1 }
      "#CFE8FF" (initRow "X") (by decide) (by decide)).2.2 rfl⟩

/-- C5: during grid building a stored record whose (start, end) range
fails validation (the validator returns false), or whose start or end
label is absent from the slot axis, is skipped silently: the requester's
row is returned unchanged with no error, and deleting such a record from
the requester's record list does not change the built row at all (so all
other records and rows are unaffected). Stated for both `src/form.py`
and `src/app.py` (whose variant checks the reformatted labels). -/
theorem grid_skips_invalid_records
    (slots : List String) (fillc user : String) (row : Row) (rec : Record)
    (l1 l2 : List Record) :
    (validate_range rec.start rec.end_ = .ok false →
      FormPy.processRecord slots fillc row rec = .ok row) ∧
    (validate_range rec.start rec.end_ = .ok true →
      (listIndex slots rec.start = none ∨ listIndex slots rec.end_ = none) →
      FormPy.processRecord slots fillc row rec = .ok row) ∧
    (∀ a b, parseHM rec.start = some a → parseHM rec.end_ = some b → ¬a < b →
      AppPy.processRecord slots fillc row rec = .ok row) ∧
    (∀ a b, parseHM rec.start = some a → parseHM rec.end_ = some b → a < b →
      (listIndex slots (fmtHM a) = none ∨ listIndex slots (fmtHM b) = none) →
      AppPy.processRecord slots fillc row rec = .ok row) ∧
    ((∀ r : Row, FormPy.processRecord slots (name_to_color user) r rec = .ok r) →
      FormPy.buildRow slots user (l1 ++ rec :: l2)
        = FormPy.buildRow slots user (l1 ++ l2)) ∧
    ((∀ r : Row, AppPy.processRecord slots (name_to_color user) r rec = .ok r) →
      AppPy.buildRow slots user (l1 ++ rec :: l2)
        = AppPy.buildRow slots user (l1 ++ l2)) := by
  refine ⟨?_, ?_, ?_, ?_, ?_, ?_⟩
  · exact fun hv => FormPy.processRecord_skip_invalid_form hv
  · exact fun hv h => FormPy.processRecord_skip_absent_form hv h
  · exact fun a b hs he hab => AppPy.processRecord_skip_invalid_app hs he hab
  · exact fun a b hs he hab h => AppPy.processRecord_skip_absent_app hs he hab h
  · intro hsk
    exact foldlM_except_skip hsk l1 l2 (initRow user)
  · intro hsk
    exact foldlM_except_skip hsk l1 l2 (initRow user)

/-- C5 witness: a reversed range (`09:15 → 09:00`) and an off-axis range
(`09:00 → 12:00`) are both skipped, leaving the row and the whole
row-build unchanged. -/
theorem grid_skips_invalid_records_witness :
    validate_range "09:15" "09:00" = .ok false ∧
    FormPy.processRecord ["09:00", "09:15"] "#CFE8FF" (initRow "X")
        { user := "X", date := "d", place := "P",
          start := "09:15", end_ := "09:00", priority := 1 }
      = .ok (initRow "X") ∧
    FormPy.buildRow ["09:00", "09:15"] "X"
        ([] ++ ({ user := "X", date := "d", place := "P",
                  start := "09:00", end_ := "12:00", priority := 2 } : Record)
          :: [])
      = FormPy.buildRow ["09:00", "09:15"] "X" ([] ++ []) := by
  refine ⟨by rfl, ?_, ?_⟩
  · exact (grid_skips_invalid_records ["09:00", "09:15"] "#CFE8FF" "X"
      (initRow "X")
      { user := "X", date := "d", place := "P",
        start := "09:15", end_ := "09:00", priority := 1 } [] []).1 (by rfl)
  · exact (grid_skips_invalid_records ["09:00", "09:15"] "#CFE8FF" "X"
      (initRow "X")
      { user := "X", date := "d", place := "P",
        start := "09:00", end_ := "12:00", priority := 2 } [] []).2.2.2.2.1
      (fun r => (grid_skips_invalid_records ["09:00", "09:15"] "#CFE8FF" "X" r
        { user := "X", date := "d", place := "P",
          start := "09:00", end_ := "12:00", priority := 2 } [] []).2.1
        (by rfl) (Or.inr (by rfl)))

lemma rankLabel_ne_empty (p : Nat) : rankLabel p ≠ "" := by
  intro h
  have hd : (rankLabel p).data.length = 0 := by rw [h]; rfl
  have h1 : ("第" : String).data.length = 1 := rfl
  rw [rankLabel, String.data_append, String.data_append, List.length_append,
    List.length_append] at hd
  omega

/-- C6: when two records of the same requester (same row, same fill)
have overlapping column spans, a cell in the overlap first receives the
first record's rank label directly (the cell was empty), and the second
record appends `",label"` to the existing text, so the final cell text
is both rank labels joined by a comma in processing order. -/
theorem overlap_cell_label_concat
    (slots : List String) (fillc : String) (r1 r2 : Record) (row : Row)
    (a1 b1 a2 b2 s1 e1 s2 e2 c : Nat)
    (hp1 : parseHM r1.start = some a1) (hq1 : parseHM r1.end_ = some b1)
    (hv1 : a1 < b1)
    (hi1 : listIndex slots r1.start = some s1)
    (hj1 : listIndex slots r1.end_ = some e1)
    (hp2 : parseHM r2.start = some a2) (hq2 : parseHM r2.end_ = some b2)
    (hv2 : a2 < b2)
    (hi2 : listIndex slots r2.start = some s2)
    (hj2 : listIndex slots r2.end_ = some e2)
    (hc1 : s1 ≤ c ∧ c < e1) (hc2 : s2 ≤ c ∧ c < e2)
    (hempty : (row (2 + c)).value = none) :
    (∀ lbl, appendLabel none lbl = lbl) ∧
    (∀ t lbl, t ≠ "" → appendLabel (some t) lbl = t ++ "," ++ lbl) ∧
    ∃ row1 row2,
      FormPy.processRecord slots fillc row r1 = .ok row1 ∧
      FormPy.processRecord slots fillc row1 r2 = .ok row2 ∧
      (row1 (2 + c)).value = some (rankLabel r1.priority) ∧
      (row2 (2 + c)).value
        = some (rankLabel r1.priority ++ "," ++ rankLabel r2.priority) := by
  have hcc1 : 2 + s1 ≤ 2 + c ∧ 2 + c < 2 + e1 := by omega
  have hcc2 : 2 + s2 ≤ 2 + c ∧ 2 + c < 2 + e2 := by omega
  refine ⟨fun lbl => rfl, fun t lbl ht => by simp [appendLabel, ht], ?_⟩
  have h1 := @FormPy.processRecord_span_form slots fillc row r1 _ _ _ _
    hp1 hq1 hv1 hi1 hj1
  set row1 : Row := fun j => if 2 + s1 ≤ j ∧ j < 2 + e1 then
      { value := some (appendLabel (row j).value (rankLabel r1.priority)),
        fill := some fillc } else row j with hrow1def
  have hval1 : (row1 (2 + c)).value = some (rankLabel r1.priority) := by
    show ((if 2 + s1 ≤ 2 + c ∧ 2 + c < 2 + e1 then
      ({ value := some (appendLabel (row (2 + c)).value (rankLabel r1.priority)),
         fill := some fillc } : Cell) else row (2 + c))).value
      = some (rankLabel r1.priority)
    rw [if_pos hcc1, hempty]
    rfl
  have h2 := @FormPy.processRecord_span_form slots fillc row1 r2 _ _ _ _
    hp2 hq2 hv2 hi2 hj2
  refine ⟨row1, _, h1, h2, hval1, ?_⟩
  show ((if 2 + s2 ≤ 2 + c ∧ 2 + c < 2 + e2 then
    ({ value := some (appendLabel (row1 (2 + c)).value (rankLabel r2.priority)),
       fill := some fillc } : Cell) else row1 (2 + c))).value
    = some (rankLabel r1.priority ++ "," ++ rankLabel r2.priority)
  rw [if_pos hcc2, hval1]
  simp [appendLabel, rankLabel_ne_empty r1.priority]

/-- C6 witness: the spec's concrete overlap scenario on the 09:00–10:00
axis: record A (09:00–09:30, rank 1) and record B (09:15–09:45, rank 2)
overlap on slot column 1; its final text is `第1希望,第2希望`. -/
theorem overlap_cell_label_concat_witness :
    parseHM "09:00" = some 540 ∧
    listIndex ["09:00", "09:15", "09:30", "09:45", "10:00"] "09:30" = some 2 ∧
    ((initRow "X") (2 + 1)).value = none ∧
    ((∀ lbl, appendLabel none lbl = lbl) ∧
     (∀ t lbl, t ≠ "" → appendLabel (some t) lbl = t ++ "," ++ lbl) ∧
     ∃ row1 row2,
       FormPy.processRecord ["09:00", "09:15", "09:30", "09:45", "10:00"]
           "#CFE8FF" (initRow "X")
           { user := "X", date := "d", place := "P",
             start := "09:00", end_ := "09:30", priority := 1 } = .ok row1 ∧
       FormPy.processRecord ["09:00", "09:15", "09:30", "09:45", "10:00"]
           "#CFE8FF" row1
           { user := "X", date := "d", place := "P",
             start := "09:15", end_ := "09:45", priority := 2 } = .ok row2 ∧
       (row1 (2 + 1)).value = some (rankLabel 1) ∧
       (row2 (2 + 1)).value = some (rankLabel 1 ++ "," ++ rankLabel 2)) :=
  ⟨by decide, by decide, by decide,
   overlap_cell_label_concat ["09:00", "09:15", "09:30", "09:45", "10:00"]
     "#CFE8FF"
     { user := "X", date := "d", place := "P",
       start := "09:00", end_ := "09:30", priority := 1 }
     { user := "X", date := "d", place := "P",
       start := "09:15", end_ := "09:45", priority := 2 }
     (initRow "X") 540 570 555 585 0 2 1 3 1
     (by decide) (by decide) (by decide) (by decide) (by decide)
     (by decide) (by decide) (by decide) (by decide) (by decide)
     (by decide) (by decide) (by decide)⟩

/-- Invariant of a requester's row during grid building: the label cell
(column 1) holds the requester name with no fill, and every fill ever
applied in the row is `name_to_color user`. -/
def rowInv (user : String) (row : Row) : Prop :=
  row 1 = { value := some user, fill := none } ∧
  ∀ j, (row j).fill = none ∨ (row j).fill = some (name_to_color user)

lemma colorCells_inv {user fillc : String} {row : Row} {label : String}
    {a b : Nat} (ha : 2 ≤ a) (hfc : fillc = name_to_color user)
    (hinv : rowInv user row) :
    rowInv user (colorCells fillc label a b row) := by
  constructor
  · rw [colorCells_apply, if_neg (by omega)]
    exact hinv.1
  · intro j
    rw [colorCells_apply]
    by_cases h : a ≤ j ∧ j < b
    · rw [if_pos h]
      right
      rw [hfc]
    · rw [if_neg h]
      exact hinv.2 j

lemma form_processRecord_inv {slots : List String} {user : String}
    {row row' : Row} {rec : Record}
    (h : FormPy.processRecord slots (name_to_color user) row rec = .ok row')
    (hinv : rowInv user row) : rowInv user row' := by
  unfold FormPy.processRecord at h
  cases hv : validate_range rec.start rec.end_ with
  | error e =>
    rw [hv] at h
    have h' : (Except.error e : Except Unit Row) = .ok row' := h
    exact Except.noConfusion h'
  | ok b =>
    rw [hv] at h
    cases b with
    | false =>
      have h' : Except.ok row = Except.ok row' := h
      cases Except.ok.inj h'
      exact hinv
    | true =>
      cases hi : listIndex slots rec.start with
      | none =>
        rw [hi] at h
        have h' : Except.ok row = Except.ok row' := h
        cases Except.ok.inj h'
        exact hinv
      | some si =>
        cases hj : listIndex slots rec.end_ with
        | none =>
          rw [hi, hj] at h
          have h' : Except.ok row = Except.ok row' := h
          cases Except.ok.inj h'
          exact hinv
        | some ei =>
          rw [hi, hj] at h
          have h' : Except.ok (colorCells (name_to_color user)
              (rankLabel rec.priority) (2 + si) (2 + ei) row)
            = Except.ok row' := h
          cases Except.ok.inj h'
          exact colorCells_inv (by omega) rfl hinv

lemma app_processRecord_inv {slots : List String} {user : String}
    {row row' : Row} {rec : Record}
    (h : AppPy.processRecord slots (name_to_color user) row rec = .ok row')
    (hinv : rowInv user row) : rowInv user row' := by
  unfold AppPy.processRecord at h
  cases hs : parseHM rec.start with
  | none =>
    rw [hs] at h
    cases he : parseHM rec.end_ with
    | none =>
      rw [he] at h
      have h' : Except.ok row = Except.ok row' := h
      cases Except.ok.inj h'
      exact hinv
    | some b =>
      rw [he] at h
      have h' : Except.ok row = Except.ok row' := h
      cases Except.ok.inj h'
      exact hinv
  | some a =>
    rw [hs] at h
    cases he : parseHM rec.end_ with
    | none =>
      rw [he] at h
      have h' : Except.ok row = Except.ok row' := h
      cases Except.ok.inj h'
      exact hinv
    | some b =>
      rw [he] at h
      have h2 : (match validate_range (fmtHM a) (fmtHM b) with
        | Except.error err => (Except.error err : Except Unit Row)
        | Except.ok false => Except.ok row
        | Except.ok true =>
          match listIndex slots (fmtHM a), listIndex slots (fmtHM b) with
          | some s_idx, some e_idx =>
            Except.ok (colorCells (name_to_color user) (rankLabel rec.priority)
              (2 + s_idx) (2 + e_idx) row)
          | _, _ => Except.ok row) = Except.ok row' := h
      cases hv : validate_range (fmtHM a) (fmtHM b) with
      | error e =>
        rw [hv] at h2
        have h' : (Except.error e : Except Unit Row) = .ok row' := h2
        exact Except.noConfusion h'
      | ok vb =>
        rw [hv] at h2
        cases vb with
        | false =>
          have h' : Except.ok row = Except.ok row' := h2
          cases Except.ok.inj h'
          exact hinv
        | true =>
          cases hi : listIndex slots (fmtHM a) with
          | none =>
            rw [hi] at h2
            have h' : Except.ok row = Except.ok row' := h2
            cases Except.ok.inj h'
            exact hinv
          | some si =>
            cases hj : listIndex slots (fmtHM b) with
            | none =>
              rw [hi, hj] at h2
              have h' : Except.ok row = Except.ok row' := h2
              cases Except.ok.inj h'
              exact hinv
            | some ei =>
              rw [hi, hj] at h2
              have h' : Except.ok (colorCells (name_to_color user)
                  (rankLabel rec.priority) (2 + si) (2 + ei) row)
                = Except.ok row' := h2
              cases Except.ok.inj h'
              exact colorCells_inv (by omega) rfl hinv

/-- C9 counterexample: the requester's label cell is never filled. After
building a row with one valid record, the label cell (column 1) has fill
`none`, while an interval cell (column 2) has the requester's color —
so the claim that the label cell "receives that same color" is false. -/
theorem label_cell_not_filled_cex :
    (FormPy.buildRow ["09:00", "09:15"] "X"
        [{ user := "X", date := "2025-10-25", place := "P",
           start := "09:00", end_ := "09:15", priority := 1 }]).map
      (fun row => ((row 1).fill, (row 2).fill))
      = .ok (none, some (name_to_color "X")) ∧
    (none : Option String) ≠ some (name_to_color "X") := by
  refine ⟨rfl, ?_⟩
  intro h
  exact Option.noConfusion h

/-- C9 (amended): within one grid, every fill a requester's row ever
receives is the single color `name_to_color user` — the color never
varies across the row no matter how many preferences the requester has
or how they overlap, and only labels accumulate; however the requester's
label cell (column 1) keeps its name text and receives *no* fill at all.
Holds for both `src/form.py` and `src/app.py`. -/
theorem row_fill_single_color (slots : List String) (user : String)
    (recs : List Record) :
    (∀ row : Row, FormPy.buildRow slots user recs = .ok row →
      (row 1).fill = none ∧ (row 1).value = some user ∧
      ∀ j, (row j).fill = none ∨ (row j).fill = some (name_to_color user)) ∧
    (∀ row : Row, AppPy.buildRow slots user recs = .ok row →
      (row 1).fill = none ∧ (row 1).value = some user ∧
      ∀ j, (row j).fill = none ∨ (row j).fill = some (name_to_color user)) := by
  have hinit : rowInv user (initRow user) := by
    constructor
    · rfl
    · intro j
      left
      unfold initRow
      split <;> rfl
  constructor
  · intro row hrow
    have hP := foldlM_inv (P := rowInv user)
      (fun acc x r h hp => form_processRecord_inv h hp)
      recs (initRow user) row hrow hinit
    exact ⟨by rw [hP.1], by rw [hP.1], hP.2⟩
  · intro row hrow
    have hP := foldlM_inv (P := rowInv user)
      (fun acc x r h hp => app_processRecord_inv h hp)
      recs (initRow user) row hrow hinit
    exact ⟨by rw [hP.1], by rw [hP.1], hP.2⟩

/-- The concrete row produced in the C9 witness run. -/
def rowC9 : Row := fun j =>
  if j = 2 then
    { value := some (appendLabel ((initRow "X") 2).value (rankLabel 1)),
      fill := some (name_to_color "X") }
  else initRow "X" j

/-- C9 witness: the amended statement evaluated on a one-record build. -/
theorem row_fill_single_color_witness :
    (rowC9 1).fill = none ∧ (rowC9 1).value = some "X" ∧
    ∀ j, (rowC9 j).fill = none ∨ (rowC9 j).fill = some (name_to_color "X") :=
  (row_fill_single_color ["09:00", "09:15"] "X"
    [{ user := "X", date := "d", place := "P",
       start := "09:00", end_ := "09:15", priority := 1 }]).1 rowC9 rfl

/-- Store contents and hope block used in the C4 refutation. -/
def aliceStore : List Record :=
  [{ user := "alice smith", date := "2025-10-25", place := "メインステージ",
     start := "09:00", end_ := "09:15", priority := 1 }]

def aliceHope : Hope :=
  { date := "2025-10-25", place := "メインステージ",
    start := "09:00", end_ := "09:15" }

/-- C4 counterexample: the store already holds requester identity
"alice smith". Submitting " Alice  Smith" — which trim/collapse/casefold
normalizes to that very identity — is accepted and its three rows are
appended; no ValidationError is raised. Even the byte-identical
duplicate "alice smith" is appended. The submit handlers never consult
the store. -/
theorem submit_duplicate_appended_cex :
    FormPy.submit aliceStore " Alice  Smith" aliceHope aliceHope aliceHope
      = .ok (.inr (aliceStore ++
          [FormPy.mkRow " Alice  Smith" aliceHope 1,
           FormPy.mkRow " Alice  Smith" aliceHope 2,
           FormPy.mkRow " Alice  Smith" aliceHope 3])) ∧
    FormPy.submit aliceStore "alice smith" aliceHope aliceHope aliceHope
      = .ok (.inr (aliceStore ++
          [FormPy.mkRow "alice smith" aliceHope 1,
           FormPy.mkRow "alice smith" aliceHope 2,
           FormPy.mkRow "alice smith" aliceHope 3])) ∧
    (aliceStore.map (·.user)) = ["alice smith"] := ⟨rfl, rfl, rfl⟩

/-- C4 (amended): submission-time validation checks only the surface
inputs — nonblank (stripped) required fields and valid hope ranges — and
never consults the store: whenever those checks pass, the three ranked
rows are appended to *any* store, even one already containing an
identical or normalization-equivalent requester identity; rejection
(`st.error` with the message list) happens only for blank fields or
invalid ranges. Holds for both submit handlers. -/
theorem submit_no_store_check
    (store : List Record) (name : String) (h1 h2 h3 : Hope)
    (rerrs : List String)
    (h : rangeErrors [h1, h2, h3] 1 = .ok rerrs) :
    (FormPy.submit store name h1 h2 h3
      = .ok (if pyStrip name = "" ∨ rerrs ≠ [] then
          .inl ((if pyStrip name = "" then ["お名前は必須です。"] else [])
            ++ rerrs)
        else .inr (store ++ [FormPy.mkRow name h1 1, FormPy.mkRow name h2 2,
                             FormPy.mkRow name h3 3]))) ∧
    (∀ g rep fac em ph, pyStrip g ≠ "" → pyStrip rep ≠ "" → pyStrip fac ≠ "" →
      pyStrip em ≠ "" → pyStrip ph ≠ "" → rerrs = [] →
      AppPy.submit store g rep fac em ph h1 h2 h3
        = .ok (.inr (store ++ [AppPy.mkRow g h1 1, AppPy.mkRow g h2 2,
                               AppPy.mkRow g h3 3]))) := by
  constructor
  · have hsub : FormPy.submit store name h1 h2 h3
        = (rangeErrors [h1, h2, h3] 1 >>= fun rErrs =>
            if ((if pyStrip name = "" then ["お名前は必須です。"] else [])
                ++ rErrs).isEmpty
            then Except.ok (Sum.inr (store ++ [FormPy.mkRow name h1 1,
              FormPy.mkRow name h2 2, FormPy.mkRow name h3 3]))
            else Except.ok (Sum.inl
              ((if pyStrip name = "" then ["お名前は必須です。"] else [])
                ++ rErrs))) := rfl
    rw [hsub, h, except_bind_ok]
    by_cases hn : pyStrip name = "" <;> by_cases hr : rerrs = [] <;>
      simp [hn, hr]
  · intro g rep fac em ph hg hrep hfac hem hph hr
    subst hr
    have hsub : AppPy.submit store g rep fac em ph h1 h2 h3
        = (rangeErrors [h1, h2, h3] 1 >>= fun rErrs =>
            if (((if pyStrip g = "" then ["団体名は必須です。"] else []) ++
                 (if pyStrip rep = "" then ["代表者氏名は必須です。"] else []) ++
                 (if pyStrip fac = "" then ["学部は必須です。"] else []) ++
                 (if pyStrip em = "" then ["メールアドレスは必須です。"] else []) ++
                 (if pyStrip ph = "" then ["電話番号は必須です。"] else []))
                ++ rErrs).isEmpty
            then Except.ok (Sum.inr (store ++ [AppPy.mkRow g h1 1,
              AppPy.mkRow g h2 2, AppPy.mkRow g h3 3]))
            else Except.ok (Sum.inl
              (((if pyStrip g = "" then ["団体名は必須です。"] else []) ++
                (if pyStrip rep = "" then ["代表者氏名は必須です。"] else []) ++
                (if pyStrip fac = "" then ["学部は必須です。"] else []) ++
                (if pyStrip em = "" then ["メールアドレスは必須です。"] else []) ++
                (if pyStrip ph = "" then ["電話番号は必須です。"] else []))
                ++ rErrs))) := rfl
    rw [hsub, h, except_bind_ok]
    simp [hg, hrep, hfac, hem, hph]

/-- C4 witness: the amended statement on the populated store — the
surface checks pass, so the duplicate submission is appended. -/
theorem submit_no_store_check_witness :
    rangeErrors [aliceHope, aliceHope, aliceHope] 1 = .ok [] ∧
    FormPy.submit aliceStore " Alice  Smith" aliceHope aliceHope aliceHope
      = .ok (if pyStrip " Alice  Smith" = "" ∨ ([] : List String) ≠ [] then
          .inl ((if pyStrip " Alice  Smith" = "" then ["お名前は必須です。"]
            else []) ++ [])
        else .inr (aliceStore ++ [FormPy.mkRow " Alice  Smith" aliceHope 1,
          FormPy.mkRow " Alice  Smith" aliceHope 2,
          FormPy.mkRow " Alice  Smith" aliceHope 3])) :=
  ⟨rfl,
   (submit_no_store_check aliceStore " Alice  Smith" aliceHope aliceHope
     aliceHope [] rfl).1⟩

lemma exportDates_getD_form (places slots : List String) (df : List Record)
    (dates : List String) (i : Nat) (hi : i < dates.length) :
    (FormPy.exportDates places slots df dates).getD i ("", .error .dataError)
      = (dates.getD i "",
         FormPy.make_excel_by_date places slots df (dates.getD i "")) := by
  unfold FormPy.exportDates
  rw [List.getD_eq_getElem?_getD, List.getElem?_map, List.getElem?_eq_getElem hi,
    List.getD_eq_getElem dates _ hi]
  rfl

lemma exportDates_getD_app (places slots : List String) (df : List Record)
    (dates : List String) (i : Nat) (hi : i < dates.length) :
    (AppPy.exportDates places slots df dates).getD i ("", .error .dataError)
      = (dates.getD i "",
         AppPy.make_excel_by_date places slots df (dates.getD i "")) := by
  unfold AppPy.exportDates
  rw [List.getD_eq_getElem?_getD, List.getElem?_map, List.getElem?_eq_getElem hi,
    List.getD_eq_getElem dates _ hi]
  rfl

/-- Store used in the C8 refutation: one record matches the requested
date but its stored start does not parse as a time. -/
def badStore : List Record :=
  [{ user := "X", date := "2025-10-25", place := "P",
     start := "garbage", end_ := "10:00", priority := 1 }]

/-- C8 counterexample: for `src/form.py`, a date with one matching
record whose stored start is unparseable: the assembler neither
succeeds nor reports the no-data `DataError` — it aborts with the
exception escaping `validate_range`. This refutes "when at least one
record matches the date, it succeeds" and the "exactly when" clause. -/
theorem form_export_parse_abort_cex :
    (badStore.filter (fun r => r.date == "2025-10-25")).length = 1 ∧
    FormPy.make_excel_by_date ["P"] ["09:00", "09:15"] badStore "2025-10-25"
      = .error .parseError ∧
    ExcErr.parseError ≠ ExcErr.dataError := ⟨by decide, rfl, by decide⟩

/-- C8 (amended): both assemblers fail with the no-data error exactly
when zero stored records match the requested date. Given at least one
match, `src/app.py` always succeeds — places without records included,
they just get empty sheets — and `src/form.py` succeeds provided every
matching record's start and end parse as times (otherwise it aborts
with a different, non-DataError exception; see the `validate_range`
totality issue). Each requested date is exported independently: entry
`i` of the export loop depends only on date `i`. -/
theorem make_excel_dataerror_characterization
    (places slots : List String) (df : List Record) (d : String) :
    (FormPy.make_excel_by_date places slots df d = .error .dataError ↔
      df.filter (fun r => r.date == d) = []) ∧
    (AppPy.make_excel_by_date places slots df d = .error .dataError ↔
      df.filter (fun r => r.date == d) = []) ∧
    (df.filter (fun r => r.date == d) ≠ [] →
      ∃ shs, AppPy.make_excel_by_date places slots df d = .ok shs) ∧
    (df.filter (fun r => r.date == d) ≠ [] →
      (∀ r ∈ df.filter (fun r => r.date == d),
        (∃ a, parseHM r.start = some a) ∧ (∃ b, parseHM r.end_ = some b)) →
      ∃ shs, FormPy.make_excel_by_date places slots df d = .ok shs) ∧
    (∀ dates i, i < dates.length →
      (FormPy.exportDates places slots df dates).getD i ("", .error .dataError)
        = (dates.getD i "",
           FormPy.make_excel_by_date places slots df (dates.getD i "")) ∧
      (AppPy.exportDates places slots df dates).getD i ("", .error .dataError)
        = (dates.getD i "",
           AppPy.make_excel_by_date places slots df (dates.getD i ""))) :=
  ⟨FormPy.make_excel_dataError_iff_form places slots df d,
   AppPy.make_excel_dataError_iff_app places slots df d,
   fun hne => AppPy.make_excel_ok hne,
   fun hne hpar => FormPy.make_excel_ok_of_parse hne hpar,
   fun dates i hi => ⟨exportDates_getD_form places slots df dates i hi,
     exportDates_getD_app places slots df dates i hi⟩⟩

/-- C8 witness: empty store → `DataError`; one matching record (and one
configured place) → success, for `src/app.py`. -/
theorem make_excel_dataerror_characterization_witness :
    AppPy.make_excel_by_date ["P"] ["09:00", "09:15"] [] "2025-10-25"
      = .error .dataError ∧
    ∃ shs, AppPy.make_excel_by_date ["P"] ["09:00", "09:15"]
        [{ user := "X", date := "2025-10-25", place := "P",
           start := "09:00", end_ := "09:15", priority := 1 }] "2025-10-25"
      = .ok shs :=
  ⟨(make_excel_dataerror_characterization ["P"] ["09:00", "09:15"] []
      "2025-10-25").2.1.mpr rfl,
   (make_excel_dataerror_characterization ["P"] ["09:00", "09:15"]
      [{ user := "X", date := "2025-10-25", place := "P",
         start := "09:00", end_ := "09:15", priority := 1 }]
      "2025-10-25").2.2.1 (by decide)⟩

/-- Record used in the C10 witness. -/
def recBad10 : Record :=
  { user := "Y", date := "2025-11-01", place := "P",
    start := "bad-value", end_ := "10:00", priority := 1 }

/-- C10: `validate_range` is not total — an argument that does not parse
as a time makes it raise (`.error`) instead of returning false.
Consequently a single stored record with an unparseable start or end, on
the requested date and a configured place, aborts the entire
`src/form.py` export with that exception, whereas `src/app.py`
reformats both values inside `try/except` first, skips such records,
and its export still succeeds whenever any record matches the date. -/
theorem validate_range_partiality_divergence
    (places slots : List String) (df : List Record) (d : String)
    (rec : Record) (fillc : String) (row : Row) :
    (∀ s e, parseHM s = none → validate_range s e = .error ()) ∧
    (∀ s e a, parseHM s = some a → parseHM e = none →
      validate_range s e = .error ()) ∧
    (rec ∈ df → rec.date = d → rec.place ∈ places →
      (parseHM rec.start = none ∨ parseHM rec.end_ = none) →
      FormPy.make_excel_by_date places slots df d = .error .parseError) ∧
    ((parseHM rec.start = none ∨ parseHM rec.end_ = none) →
      AppPy.processRecord slots fillc row rec = .ok row) ∧
    (df.filter (fun r => r.date == d) ≠ [] →
      ∃ shs, AppPy.make_excel_by_date places slots df d = .ok shs) :=
  ⟨fun _ _ hs => validate_range_error_left hs,
   fun _ _ _ hs he => validate_range_error_right hs he,
   fun hrec hdate hplace hbad =>
     FormPy.make_excel_parse_abort hrec hdate hplace hbad,
   fun hbad => AppPy.processRecord_skip_unparseable hbad,
   fun hne => AppPy.make_excel_ok hne⟩

/-- C10 witness: concrete divergence — the same unparseable record
crashes the form-variant export and is skipped by the app variant. -/
theorem validate_range_partiality_divergence_witness :
    validate_range "garbage" "10:00" = .error () ∧
    FormPy.make_excel_by_date ["P"] ["09:00", "09:15"] [recBad10] "2025-11-01"
      = .error .parseError ∧
    AppPy.processRecord ["09:00", "09:15"] "#CFE8FF" (initRow "Y") recBad10
      = .ok (initRow "Y") :=
  ⟨(validate_range_partiality_divergence [] [] [] "" recBad10 ""
      (initRow "")).1 "garbage" "10:00" rfl,
   (validate_range_partiality_divergence ["P"] ["09:00", "09:15"] [recBad10]
      "2025-11-01" recBad10 "#CFE8FF" (initRow "Y")).2.2.1
     (by decide) rfl (by decide) (Or.inl rfl),
   (validate_range_partiality_divergence ["P"] ["09:00", "09:15"] [recBad10]
      "2025-11-01" recBad10 "#CFE8FF" (initRow "Y")).2.2.2.1 (Or.inl rfl)⟩
